import Mathlib

/-!
Verification development for the lustre_exporter collection engine.

The Go sources of the repository are shallowly embedded as Lean functions:
pure parsing helpers become pure Lean functions over `String`/`List Char`,
stateful components (the scrape coordinator `runner`, the per-round
`fileReader` cache) become explicit state-passing functions together with a
reachability relation.  Conventions used throughout:

* Go byte strings are modelled as Lean `String`s; all inputs of interest are
  ASCII, so Go byte indices coincide with character indices.
* A Go function that can panic at runtime (index out of range, slice out of
  bounds) is embedded with an `Option` layer: `none` is the panic.
* A Go function returning `(value, error)` is embedded with `Except String`:
  `.error e` is a non-nil Go error.
* Go `float64` values are modelled as `ℚ`.  Every numeric value moved around
  by this program is obtained from decimal literals small enough to be exact
  in `float64`, so the rational model is value-faithful on the inputs the
  theorems talk about.
* Go maps are modelled as association lists with overwrite-on-insert;
  map iteration order, which Go leaves unspecified, corresponds to the list
  order of the model.
-/

namespace LustreExporter

/-! ## String machinery shared by the parsers

`goSplitChar` embeds Go `strings.Split(s, sep)` for a one-character
separator; `splitDashSpace` embeds `strings.Split(s, "- ")` as used by
`parseJobStatsText`.  `splitRunBy` embeds splitting around maximal runs of
separator characters: with `(· = ' ')` it is Go `regexp.MustCompile(" +").Split(s, -1)`,
and `goFields` (keep only nonempty pieces) is Go `strings.Fields`.
-/

/-- Go `strings.Split` with a single-character separator, over char lists.
`strings.Split("", sep)` returns `[""]`, hence the `[[]]` base case. -/
def goSplitCharList (sep : Char) : List Char → List (List Char)
  | [] => [[]]
  | c :: cs =>
    let r := goSplitCharList sep cs
    if c = sep then [] :: r
    else
      match r with
      | [] => [[c]]
      | p :: ps => (c :: p) :: ps

/-- Go `strings.Split(s, sep)` for a one-character separator. -/
def goSplitChar (sep : Char) (s : String) : List String :=
  (goSplitCharList sep s.data).map String.mk

/-- `strings.Split` always returns at least one element: every branch of
`goSplitCharList` produces a nonempty list. -/
theorem goSplitCharList_ne_nil (sep : Char) (l : List Char) :
    goSplitCharList sep l ≠ [] := by
  cases l with
  | nil => simp [goSplitCharList]
  | cons c cs =>
    simp only [goSplitCharList]
    split
    · simp
    · split <;> simp

theorem goSplitChar_length_pos (sep : Char) (s : String) :
    1 ≤ (goSplitChar sep s).length := by
  have h := goSplitCharList_ne_nil sep s.data
  simp only [goSplitChar, List.length_map]
  exact Nat.one_le_iff_ne_zero.mpr (fun hlen => h (List.length_eq_zero.mp hlen))

/-- The whitespace class of Go `unicode.IsSpace` restricted to ASCII
(`\t`, `\n`, `\v`, `\f`, `\r`, space); all file contents handled by the
program are ASCII. -/
def isGoSpace (c : Char) : Bool :=
  c = ' ' || c = '\t' || c = '\n' || c = '\x0b' || c = '\x0c' || c = '\r'

/-- Go `strings.TrimSpace` (ASCII fragment): drop leading and trailing
whitespace. -/
def goTrimSpace (s : String) : String :=
  String.mk (((s.data.dropWhile isGoSpace).reverse.dropWhile isGoSpace).reverse)

/-- Splitting around maximal runs of characters satisfying `p`.  The flag
records whether the scanner is inside a separator run, so the recursion is
structural.  Starting with the flag `false`, this is Go
`regexp.MustCompile(" +").Split(s, -1)` when `p` is `(· = ' ')`: empty
pieces are kept at the borders, runs count as one separator. -/
def splitRunByAux (p : Char → Bool) : Bool → List Char → List (List Char)
  | _, [] => [[]]
  | true, c :: cs =>
    if p c then splitRunByAux p true cs
    else
      match splitRunByAux p false cs with
      | [] => [[c]]
      | q :: qs => (c :: q) :: qs
  | false, c :: cs =>
    if p c then [] :: splitRunByAux p true cs
    else
      match splitRunByAux p false cs with
      | [] => [[c]]
      | q :: qs => (c :: q) :: qs

/-- Go `regexp.MustCompile(" +").Split(s, -1)`. -/
def goSplitSpaceRuns (s : String) : List String :=
  (splitRunByAux (fun c => c = ' ') false s.data).map String.mk

/-- Go `strings.Fields`: the nonempty pieces between whitespace runs. -/
def goFields (s : String) : List String :=
  ((splitRunByAux isGoSpace false s.data).filter (fun l => ¬ l.isEmpty)).map String.mk

/-- Index of the first position of `l` where `pat` occurs as a prefix of the
remaining text (Go `strings.Index(l, pat)`, in characters). -/
def findPrefixPos (pat : List Char) : List Char → Option Nat
  | [] => if pat.isEmpty then some 0 else none
  | c :: cs =>
    if pat.isPrefixOf (c :: cs) then some 0
    else (findPrefixPos pat cs).map (· + 1)

/-- First match of the regular expression `LIT.*` in `text` (Go
`regexCaptureString(LIT ++ ".*", text)` for a literal `LIT` containing no
regex metacharacters and no newline): the text from the first occurrence of
`LIT` to the end of that line, or `""` when `LIT` does not occur. -/
def captureToEol (lit : String) (text : String) : String :=
  match findPrefixPos lit.data text.data with
  | none => ""
  | some i => String.mk ((text.data.drop i).takeWhile (fun c => c ≠ '\n'))

/-- Positions in `l` that start a line (offset 0 or right after a newline)
where `pat` occurs as a prefix; the flag tracks whether the current offset
is a line start.  This is the match position of the anchored multi-line
regular expression `(?m:^PAT)`. -/
def findLineStartPosAux (pat : List Char) : Bool → List Char → Option Nat
  | atStart, [] => if atStart ∧ pat.isEmpty then some 0 else none
  | atStart, c :: cs =>
    if atStart ∧ pat.isPrefixOf (c :: cs) then some 0
    else (findLineStartPosAux pat (c = '\n') cs).map (· + 1)

/-- First match of `(?ms:^TITLE.*?(\n\n|\z))` in `text` (the block-capture
regular expression of `parseBRWStats`): from the first line start where the
literal `TITLE` matches, capture non-greedily up to and including the first
blank line (`\n\n`), or to the end of the text. -/
def captureBlock (title : String) (text : String) : String :=
  match findLineStartPosAux title.data true text.data with
  | none => ""
  | some i =>
    let suf := text.data.drop i
    match findPrefixPos ['\n', '\n'] suf with
    | some k => String.mk (suf.take (k + 2))
    | none => String.mk suf

/-! ## Numeric token extraction and number parsing

`numTokens` embeds `FindAllString` of the shared numeric regular expression
`[0-9]*\.[0-9]+|[0-9]+` (`numRegexPattern` / `insProcfsV2.reNum`): leftmost
scanning, first alternative preferred, non-overlapping matches.
-/

/-- Length of the match of `[0-9]*\.[0-9]+|[0-9]+` anchored at the head of
`l`, or `none`.  The first alternative is a (possibly empty) digit run, a
dot, and a nonempty digit run; if it fails, the second alternative is a
nonempty digit run. -/
def matchNumAt (l : List Char) : Option Nat :=
  let ds1 := l.takeWhile Char.isDigit
  let rest := l.dropWhile Char.isDigit
  match rest with
  | '.' :: r2 =>
    let ds2 := r2.takeWhile Char.isDigit
    if 0 < ds2.length then some (ds1.length + 1 + ds2.length)
    else if 0 < ds1.length then some ds1.length
    else none
  | _ => if 0 < ds1.length then some ds1.length else none

/-- Fuel-driven scanner for all matches of the numeric regular expression;
the fuel starts at the length of the list and never runs out because every
step consumes at least one character. -/
def numTokensAux : Nat → List Char → List String
  | 0, _ => []
  | _ + 1, [] => []
  | fuel + 1, c :: cs =>
    match matchNumAt (c :: cs) with
    | some n =>
      if n = 0 then numTokensAux fuel cs
      else String.mk ((c :: cs).take n) :: numTokensAux fuel ((c :: cs).drop n)
    | none => numTokensAux fuel cs

/-- Go `numRegexPattern.FindAllString(text, -1)` /
`regexCaptureNumbers(text)`: every numeric token of `text` in order. -/
def regexCaptureNumbers (text : String) : List String :=
  numTokensAux text.data.length text.data

/-- Numeric value of a nonempty decimal digit string. -/
def natOfDigits (l : List Char) : Nat :=
  l.foldl (fun a c => 10 * a + (c.toNat - 48)) 0

/-- Decimal core of Go `strconv.ParseFloat`: an unsigned decimal with an
optional fractional part (`"12"`, `"12."`, `"12.5"`, `".5"`).  The exotic
forms ParseFloat also accepts (exponents, `Inf`, `NaN`, hex floats) never
occur in the pseudo-files this program reads and are rejected here. -/
def parseDecimalCore (l : List Char) : Option ℚ :=
  match goSplitCharList '.' l with
  | [ip] =>
    if ip.all Char.isDigit ∧ ¬ ip.isEmpty then some (natOfDigits ip : ℚ) else none
  | [ip, fp] =>
    if ip.all Char.isDigit ∧ fp.all Char.isDigit ∧ ¬ (ip.isEmpty ∧ fp.isEmpty) then
      some ((natOfDigits ip : ℚ) + (natOfDigits fp : ℚ) / ((10 : ℚ) ^ fp.length))
    else none
  | _ => none

/-- Go `strconv.ParseFloat(s, 64)` (decimal fragment, see
`parseDecimalCore`); `none` is a non-nil error. -/
def goParseFloat (s : String) : Option ℚ :=
  match s.data with
  | '+' :: rest => parseDecimalCore rest
  | '-' :: rest => (parseDecimalCore rest).map Neg.neg
  | l => parseDecimalCore l

/-- Go `strconv.ParseInt(s, 10, 64)`: optional sign, decimal digits, with
the int64 range check; `none` is a non-nil error. -/
def goParseInt (s : String) : Option Int :=
  let core : List Char → Option Int := fun l =>
    if l.all Char.isDigit ∧ ¬ l.isEmpty then some (natOfDigits l : Int) else none
  let v : Option Int :=
    match s.data with
    | '+' :: rest => core rest
    | '-' :: rest => (core rest).map Neg.neg
    | l => core l
  match v with
  | some n => if -(2 ^ 63) ≤ n ∧ n ≤ 2 ^ 63 - 1 then some n else none
  | none => none

/-- Go `strconv.ParseUint(s, 10, 64)`: decimal digits only, with the uint64
range check; `none` is a non-nil error. -/
def goParseUint (s : String) : Option Nat :=
  if s.data.all Char.isDigit ∧ ¬ s.data.isEmpty then
    let n := natOfDigits s.data
    if n ≤ 2 ^ 64 - 1 then some n else none
  else none

/-- Go `strings.TrimPrefix`. -/
def goTrimPrefix (pre : String) (s : String) : String :=
  if pre.data.isPrefixOf s.data then String.mk (s.data.drop pre.data.length) else s

/-- Go `strings.TrimSuffix`. -/
def goTrimSuffix (suf : String) (s : String) : String :=
  if suf.data.isSuffixOf s.data then
    String.mk (s.data.take (s.data.length - suf.data.length))
  else s

/-! ## `parseFileElements` (proc_common.go / procfs.go)

The Go function splits the path on `/`, returns the last element as the
file name and the element at integer index `pathLen-2-directoryDepth` as
the node name, after stripping a `filter-` prefix and a `_UUID` suffix.
When that integer index is negative — that is, when the split has fewer
than `directoryDepth + 2` elements — the Go slice access panics, which the
embedding reports as `none`.  The declared guard `pathLen < 1` returns the
error `"path did not return at least one element"`.
-/

def parseFileElements (path : String) (directoryDepth : Nat) :
    Option (Except String (String × String)) :=
  let pathElements := goSplitChar '/' path
  let pathLen := pathElements.length
  if pathLen < 1 then
    some (.error "path did not return at least one element")
  else if pathLen < directoryDepth + 2 then
    -- Go: `pathElements[pathLen-2-directoryDepth]` with a negative index panics.
    none
  else
    let name := pathElements.getD (pathLen - 1) ""
    let nodeName := pathElements.getD (pathLen - 2 - directoryDepth) ""
    some (.ok (name, goTrimSuffix "_UUID" (goTrimPrefix "filter-" nodeName)))

/-! ## Metric record shapes and help-text constants -/

/-- `lustreStatsMetric` (current version: `value` is a Go `float64`,
modelled as `ℚ`). -/
structure LustreStatsMetric where
  title : String
  help : String
  value : ℚ
  extraLabel : String
  extraLabelValue : String
deriving Repr, DecidableEq

/-- `lustreJobsMetric`: a stats metric tagged with a job identifier. -/
structure LustreJobsMetric where
  jobID : String
  metric : LustreStatsMetric
deriving Repr, DecidableEq

/-- `lustreBRWMetric`: one histogram bucket entry, value still textual. -/
structure LustreBRWMetric where
  size : String
  operation : String
  value : String
deriving Repr, DecidableEq

/-- `lustreStatsMetric` of the v1 file procfs.go (`value` is `uint64`). -/
structure LustreStatsMetricV1 where
  title : String
  help : String
  value : Nat
deriving Repr, DecidableEq

/-- `lustreJobsMetric` of the v1 file procfs.go. -/
structure LustreJobsMetricV1 where
  jobID : String
  metric : LustreStatsMetricV1
deriving Repr, DecidableEq

def readSamplesHelp : String := "Total number of reads that have been recorded."
def readMaximumHelp : String := "The maximum read size in bytes."
def readMinimumHelp : String := "The minimum read size in bytes."
def readTotalHelp : String := "The total number of bytes that have been read."
def writeSamplesHelp : String := "Total number of writes that have been recorded."
def writeMaximumHelp : String := "The maximum write size in bytes."
def writeMinimumHelp : String := "The minimum write size in bytes."
def writeTotalHelp : String := "The total number of bytes that have been written."
def jobStatsHelp : String := "Number of operations the filesystem has performed."
def statsHelp : String := "Number of operations the filesystem has performed."

def pagesPerBlockRWHelp : String := "Total number of pages per block RPC."
def discontiguousPagesHelp : String := "Total number of logical discontinuities per RPC."
def ioTimeHelp : String :=
  "Total time in milliseconds the filesystem has spent processing various object sizes."
def diskIOSizeHelp : String :=
  "Total number of operations the filesystem has performed for the given size."
def diskIOsInFlightHelp : String :=
  "Current number of I/O operations that are processing during the snapshot."
def pagesPerRPCHelp : String := "Total number of pages per RPC."
def rpcsInFlightHelp : String := "Current number of RPCs that are processing during the snapshot."
def offsetHelp : String := "Current RPC offset by size."

def physicalPagesHelp : String := "Capacity of physical memory."
def pagesPerPoolHelp : String := "Number of pages per pool."
def maxPagesHelp : String := "Maximum number of pages that can be held."
def maxPoolsHelp : String := "Number of pools."
def totalPagesHelp : String := "Number of pages in all pools."
def totalFreeHelp : String := "Current number of pages available."
def maxPagesReachedHelp : String := "Total number of pages reached."
def growsHelp : String := "Total number of grows."
def growsFailureHelp : String := "Total number of failures while attempting to add pages."
def shrinksHelp : String := "Total number of shrinks."
def cacheAccessHelp : String := "Total number of times cache has been accessed."
def cacheMissingHelp : String := "Total number of cache misses."
def lowFreeMarkHelp : String := "Lowest number of free pages reached."
def maxWaitQueueDepthHelp : String := "Maximum waitqueue length."
def outOfMemHelp : String := "Total number of out of memory requests."

def lnetAllocatedHelp : String := "Number of messages currently allocated"
def lnetMaximumHelp : String := "Maximum number of outstanding messages"
def lnetErrorsHelp : String := "Total number of errors"
def lnetSendCountHelp : String := "Total number of messages that have been sent"
def lnetReceiveCountHelp : String := "Total number of messages that have been received"
def lnetRouteCountHelp : String := "Total number of messages that have been routed"
def lnetDropCountHelp : String := "Total number of messages that have been dropped"
def lnetSendLengthHelp : String := "Total number of bytes sent"
def lnetReceiveLengthHelp : String := "Total number of bytes received"
def lnetRouteLengthHelp : String := "Total number of bytes for routed messages"
def lnetDropLengthHelp : String := "Total number of bytes that have been dropped"

def singleType : String := "single"
def statsType : String := "stats"
def mdStatsType : String := "md_stats"
def encryptPagePoolsType : String := "encrypt_page_pools"

/-! ## `getStatsIOMetrics` (proc files, SummaryLine parser)

The source map `bytesMap` stores regular expressions of the form
`LITERAL.*` together with a positional index.  The embedding stores the
literal (everything up to the `.*`) and uses `captureToEol`, which is
exactly the behaviour of `regexCaptureString` on such patterns.  A help
text missing from the map behaves like the Go zero value: the empty pattern
captures the empty string, the length guard fires, and `(nil, nil)` is
returned. -/
def statsIOBytesMap : List (String × String × Nat) := [
  (readSamplesHelp, ("read_bytes ", 1)),
  (readMinimumHelp, ("read_bytes ", 4)),
  (readMaximumHelp, ("read_bytes ", 5)),
  (readTotalHelp, ("read_bytes ", 6)),
  (writeSamplesHelp, ("write_bytes ", 1)),
  (writeMinimumHelp, ("write_bytes ", 4)),
  (writeMaximumHelp, ("write_bytes ", 5)),
  (writeTotalHelp, ("write_bytes ", 6)),
  (physicalPagesHelp, ("physical pages: ", 2)),
  (pagesPerPoolHelp, ("pages per pool: ", 3)),
  (maxPagesHelp, ("max pages: ", 2)),
  (maxPoolsHelp, ("max pools: ", 2)),
  (totalPagesHelp, ("total pages: ", 2)),
  (totalFreeHelp, ("total free: ", 2)),
  (maxPagesReachedHelp, ("max pages reached: ", 3)),
  (growsHelp, ("grows: ", 1)),
  (growsFailureHelp, ("grows failure: ", 2)),
  (shrinksHelp, ("shrinks: ", 1)),
  (cacheAccessHelp, ("cache access: ", 2)),
  (cacheMissingHelp, ("cache missing: ", 2)),
  (lowFreeMarkHelp, ("low free mark: ", 3)),
  (maxWaitQueueDepthHelp, ("max waitqueue depth: ", 3)),
  (outOfMemHelp, ("out of mem: ", 3))]

/-- `getStatsIOMetrics(statsFile, promName, helpText)`: locate the line of
the requested quantity and extract the whitespace-separated field at the
fixed index of `bytesMap`.  `none` is the panic of `bytesSplit[index]` when
the line has too few fields. -/
def getStatsIOMetrics (statsFile promName helpText : String) :
    Option (Except String (List LustreStatsMetric)) :=
  match (statsIOBytesMap.find? (fun e => e.1 = helpText)).map (·.2) with
  | none => some (.ok [])
  | some (lit, idx) =>
    let bytesString := captureToEol lit statsFile
    if bytesString.length < 1 then some (.ok [])
    else
      let bytesSplit := goSplitSpaceRuns bytesString
      match bytesSplit.get? idx with
      | none => none
      | some tok =>
        match goParseFloat tok with
        | none => some (.error "ParseFloat")
        | some v =>
          some (.ok [{ title := promName, help := helpText, value := v,
                       extraLabel := "", extraLabelValue := "" }])

/-! ## `parseSysStatsFile` (procsys.go, NumericList parser) -/

/-- The `statsMap` of `parseSysStatsFile`: index of each lnet quantity in
the numeric-token list of the stats file. -/
def procsysStatsMap : List (String × Nat) := [
  (lnetAllocatedHelp, 0),
  (lnetMaximumHelp, 1),
  (lnetErrorsHelp, 2),
  (lnetSendCountHelp, 3),
  (lnetReceiveCountHelp, 4),
  (lnetRouteCountHelp, 5),
  (lnetDropCountHelp, 6),
  (lnetSendLengthHelp, 7),
  (lnetReceiveLengthHelp, 8),
  (lnetRouteLengthHelp, 9),
  (lnetDropLengthHelp, 10)]

/-- `parseSysStatsFile(helpText, promName, statsFile)`.  The inner
`Option LustreStatsMetric` distinguishes the zero-value metric returned
when the file holds no numeric token at all (`none`) from a parsed metric;
the outer `none` is the panic of `statsResults[index]` when the file holds
at least one number but none at the requested index (a Go map miss yields
the zero index 0, as in the source). -/
def parseSysStatsFile (helpText promName statsFile : String) :
    Option (Except String (Option LustreStatsMetric)) :=
  let statsResults := regexCaptureNumbers statsFile
  if statsResults.length < 1 then some (.ok none)
  else
    let index := ((procsysStatsMap.find? (fun e => e.1 = helpText)).map (·.2)).getD 0
    match statsResults.get? index with
    | none => none
    | some tok =>
      match goParseFloat tok with
      | none => some (.error "ParseFloat")
      | some v =>
        some (.ok (some { title := promName, help := helpText, value := v,
                          extraLabel := "", extraLabelValue := "" }))

/-! ## `splitBRWStats` (Histogram parser, current version) -/

/-- One data line of a histogram block: six or more fields make a read and
a write record, one to five fields take the single-column branch reading
`fields[0]` and `fields[1]` — which panics (`none`) when there is exactly
one field — and an all-whitespace line is skipped. -/
def splitBRWLine (line : String) : Option (List LustreBRWMetric) :=
  if 1 < line.length then
    let fields := goFields line
    if 6 ≤ fields.length then
      let size := String.mk ((fields.getD 0 "").data.filter (fun c => c ≠ ':'))
      some [{ size := size, operation := "read", value := fields.getD 1 "" },
            { size := size, operation := "write", value := fields.getD 5 "" }]
    else if 1 ≤ fields.length then
      match fields.get? 1 with
      | none => none
      | some rpcs =>
        let size := String.mk ((fields.getD 0 "").data.filter (fun c => c ≠ ':'))
        some [{ size := size, operation := "read", value := rpcs }]
    else some []
  else some []

/-- The per-line loop of `splitBRWStats`, propagating a panic. -/
def splitBRWLines : List String → Option (List LustreBRWMetric)
  | [] => some []
  | l :: ls =>
    match splitBRWLine l, splitBRWLines ls with
    | some ms, some rest => some (ms ++ rest)
    | _, _ => none

/-- `splitBRWStats(statBlock)`: skip the title line, then parse every data
line.  The source error result is always nil, so the embedding returns the
record list directly, with `none` for a panic. -/
def splitBRWStats (statBlock : String) : Option (List LustreBRWMetric) :=
  if statBlock.length = 0 ∨ statBlock = "" then some []
  else splitBRWLines (goSplitChar '\n' statBlock).tail

/-! ## `convertToBytes` (proc_common.go) -/

/-- `convertToBytes(s)`: translate a human size suffix K/M/G into a byte
count; unknown shapes pass through unchanged.  The Go multiplication is on
`uint64` and wraps, hence the `% 2 ^ 64`. -/
def convertToBytes (s : String) : String :=
  if s.length < 1 then s
  else
    let uppercaseS := String.mk (s.data.map Char.toUpper)
    let applyMult : String → Nat → String := fun numericS multiplier =>
      match goParseUint numericS with
      | none => s
      | some byteVal => Nat.repr (byteVal * multiplier % 2 ^ 64)
    match uppercaseS.data.getLast? with
    | some 'K' => applyMult (goTrimSuffix "K" uppercaseS) (2 ^ 10)
    | some 'M' => applyMult (goTrimSuffix "M" uppercaseS) (2 ^ 20)
    | some 'G' => applyMult (goTrimSuffix "G" uppercaseS) (2 ^ 30)
    | _ => s

/-! ## Claim C10: `parseFileElements` bounds -/

/-- C10: `parseFileElements` returns without panicking exactly when the
slash-split of the path has at least `directoryDepth + 2` components, and
its declared error branch (`pathLen < 1`) is unreachable because splitting
any string on `/` yields at least one element. -/
theorem parseFileElements_ok_iff (path : String) (directoryDepth : Nat) :
    ((∃ r, parseFileElements path directoryDepth = some (Except.ok r)) ↔
      directoryDepth + 2 ≤ (goSplitChar '/' path).length) ∧
    (∀ e, parseFileElements path directoryDepth ≠ some (Except.error e)) := by
  have hpos := goSplitChar_length_pos '/' path
  unfold parseFileElements
  constructor
  · by_cases h : (goSplitChar '/' path).length < directoryDepth + 2
    · simp only [if_neg (by omega : ¬ (goSplitChar '/' path).length < 1), if_pos h]
      constructor
      · rintro ⟨r, hr⟩
        exact absurd hr (by simp)
      · intro hle
        omega
    · simp only [if_neg (by omega : ¬ (goSplitChar '/' path).length < 1), if_neg h]
      constructor
      · intro _
        omega
      · intro _
        exact ⟨_, rfl⟩
  · intro e
    have hne : ¬ goSplitChar '/' path = [] := by
      intro hnil
      rw [hnil] at hpos
      simp at hpos
    by_cases h : (goSplitChar '/' path).length < directoryDepth + 2 <;>
      simp [if_neg (by omega : ¬ (goSplitChar '/' path).length < 1), h, hne]

/-! ## Lemmas about splitting on space runs -/

theorem splitSp_all (l : List Char) (h : ∀ c ∈ l, ¬ c = ' ') :
    splitRunByAux (fun c => c = ' ') false l = [l] := by
  induction l with
  | nil => rfl
  | cons c cs ih =>
    have hc : ¬ c = ' ' := h c (by simp)
    have ihh := ih (fun x hx => h x (by simp [hx]))
    simp [splitRunByAux, hc, ihh]

theorem splitSp_cons_nonsep (x : Char) (l : List Char) (hx : ¬ x = ' ') :
    splitRunByAux (fun c => c = ' ') false (x :: l) =
      match splitRunByAux (fun c => c = ' ') false l with
      | [] => [[x]]
      | q :: qs => (x :: q) :: qs := by
  simp [splitRunByAux, hx]

theorem splitSp_true_eq (c : Char) (cs : List Char) (hc : ¬ c = ' ') :
    splitRunByAux (fun c => c = ' ') true (c :: cs) =
      splitRunByAux (fun c => c = ' ') false (c :: cs) := by
  simp [splitRunByAux, hc]

theorem splitSp_word (la : List Char) (c : Char) (cs : List Char)
    (hla : ∀ x ∈ la, ¬ x = ' ') (hc : ¬ c = ' ') :
    splitRunByAux (fun c => c = ' ') false (la ++ ' ' :: c :: cs) =
      la :: splitRunByAux (fun c => c = ' ') false (c :: cs) := by
  induction la with
  | nil =>
    have h1 : splitRunByAux (fun c => c = ' ') false (' ' :: c :: cs) =
        [] :: splitRunByAux (fun c => c = ' ') true (c :: cs) := by
      simp [splitRunByAux]
    rw [List.nil_append, h1, splitSp_true_eq c cs hc]
  | cons x xs ih =>
    have hx : ¬ x = ' ' := hla x (by simp)
    have ihh := ih (fun y hy => hla y (by simp [hy]))
    rw [List.cons_append, splitSp_cons_nonsep x _ hx, ihh]

/-- Join words with single spaces; the canonical shape of one stats line. -/
def joinWords : List (List Char) → List Char
  | [] => []
  | w :: ws =>
    match ws with
    | [] => w
    | _ :: _ => w ++ ' ' :: joinWords ws

theorem joinWords_cons₂ (w w2 : List Char) (rest : List (List Char)) :
    joinWords (w :: w2 :: rest) = w ++ ' ' :: joinWords (w2 :: rest) := rfl

/-- Splitting a line of space-free nonempty words on space runs recovers
exactly the word list. -/
theorem splitSp_joinWords (ws : List (List Char)) (hne : ws ≠ [])
    (h : ∀ w ∈ ws, w ≠ [] ∧ ∀ c ∈ w, ¬ c = ' ') :
    splitRunByAux (fun c => c = ' ') false (joinWords ws) = ws := by
  induction ws with
  | nil => exact absurd rfl hne
  | cons w ws ih =>
    cases ws with
    | nil =>
      simpa [joinWords] using splitSp_all w (h w (by simp)).2
    | cons w2 rest =>
      obtain ⟨c, cs, hw2⟩ := List.exists_cons_of_ne_nil (h w2 (by simp)).1
      have hjoin : ∃ tail, joinWords (w2 :: rest) = c :: tail := by
        cases rest with
        | nil => exact ⟨cs, by simp [joinWords, hw2]⟩
        | cons r rs =>
          exact ⟨cs ++ ' ' :: joinWords (r :: rs), by rw [joinWords_cons₂, hw2]; simp⟩
      obtain ⟨tail, hjoin⟩ := hjoin
      have hc : ¬ c = ' ' := by
        have h2 := (h w2 (by simp)).2
        rw [hw2] at h2
        exact h2 c (by simp)
      have ihh := ih (by simp) (fun x hx => h x (by simp [hx]))
      rw [joinWords_cons₂, hjoin,
        splitSp_word w c _ (fun x hx => (h w (by simp)).2 x hx) hc, ← hjoin, ihh]

theorem stringMk_data (s : String) : String.mk s.data = s := rfl

theorem joinWords_ne_nil (w : List Char) (ws : List (List Char)) (hw : w ≠ []) :
    joinWords (w :: ws) ≠ [] := by
  cases ws <;> simp [joinWords, hw]

/-- If the literal occurs as a prefix of the text and the text has no
newline, the `LIT.*` capture is the whole text. -/
theorem captureToEol_of_prefix (lit text : String)
    (h1 : lit.data.isPrefixOf text.data = true) (h2 : ∀ c ∈ text.data, ¬ c = '\n') :
    captureToEol lit text = text := by
  have htk : text.data.takeWhile (fun c => c ≠ '\n') = text.data :=
    List.takeWhile_eq_self_iff.mpr (by simpa using h2)
  unfold captureToEol
  cases htd : text.data with
  | nil =>
    have htext : text = "" := by rw [← stringMk_data text, htd]
    rw [htd] at h1
    have hl : lit.data = [] := by
      cases hlit : lit.data with
      | nil => rfl
      | cons a as =>
        rw [hlit] at h1
        simp [List.isPrefixOf] at h1
    simp [hl, htext, findPrefixPos]
  | cons c cs =>
    rw [htd] at h1
    simp only [findPrefixPos, h1, if_pos]
    rw [← htd, List.drop_zero, htk, stringMk_data]

theorem isDigit_ne_space_newline (c : Char) (h : c.isDigit = true) :
    ¬ c = ' ' ∧ ¬ c = '\n' := by
  constructor <;> intro hc <;> subst hc <;> exact absurd h (by decide)

theorem isAlpha_ne_space_newline (c : Char) (h : c.isAlpha = true) :
    ¬ c = ' ' ∧ ¬ c = '\n' := by
  constructor <;> intro hc <;> subst hc <;> exact absurd h (by decide)

/-- Evaluation of `getStatsIOMetrics` on a line that is a single-space join
of nonempty space-free words: the extracted field is the word at the map
index. -/
theorem getStatsIOMetrics_words (pn helpText : String) (lit : String) (idx : Nat)
    (ws : List (List Char)) (line tok : String) (v : ℚ)
    (hmap : (statsIOBytesMap.find? (fun e => e.1 = helpText)).map (·.2) = some (lit, idx))
    (hdata : line.data = joinWords ws)
    (hpre : lit.data.isPrefixOf line.data = true)
    (hnn : ∀ c ∈ line.data, ¬ c = '\n')
    (hne : ws ≠ [])
    (hgood : ∀ w ∈ ws, w ≠ [] ∧ ∀ c ∈ w, ¬ c = ' ')
    (hget : (ws.map String.mk).get? idx = some tok)
    (hparse : goParseFloat tok = some v) :
    getStatsIOMetrics line pn helpText =
      some (.ok [{ title := pn, help := helpText, value := v,
                   extraLabel := "", extraLabelValue := "" }]) := by
  have hcap : captureToEol lit line = line := captureToEol_of_prefix lit line hpre hnn
  obtain ⟨w, ws0, hws⟩ := List.exists_cons_of_ne_nil hne
  have hlen : ¬ line.length < 1 := by
    have hnil : line.data ≠ [] := by
      rw [hdata, hws]
      exact joinWords_ne_nil w ws0 (hgood w (by rw [hws]; simp)).1
    have : line.data.length ≠ 0 := fun hz => hnil (List.length_eq_zero.mp hz)
    simp only [String.length]
    omega
  have hsplit : goSplitSpaceRuns line = ws.map String.mk := by
    unfold goSplitSpaceRuns
    rw [hdata, splitSp_joinWords ws hne hgood]
  unfold getStatsIOMetrics
  rw [hmap]
  simp only [hcap, if_neg hlen, hsplit, hget, hparse]

/-- Evaluation of `getStatsIOMetrics` when the index falls outside the
fields of the located line: the Go indexing panics. -/
theorem getStatsIOMetrics_words_panic (pn helpText : String) (lit : String) (idx : Nat)
    (ws : List (List Char)) (line : String)
    (hmap : (statsIOBytesMap.find? (fun e => e.1 = helpText)).map (·.2) = some (lit, idx))
    (hdata : line.data = joinWords ws)
    (hpre : lit.data.isPrefixOf line.data = true)
    (hnn : ∀ c ∈ line.data, ¬ c = '\n')
    (hne : ws ≠ [])
    (hgood : ∀ w ∈ ws, w ≠ [] ∧ ∀ c ∈ w, ¬ c = ' ')
    (hget : (ws.map String.mk).get? idx = none) :
    getStatsIOMetrics line pn helpText = none := by
  have hcap : captureToEol lit line = line := captureToEol_of_prefix lit line hpre hnn
  obtain ⟨w, ws0, hws⟩ := List.exists_cons_of_ne_nil hne
  have hlen : ¬ line.length < 1 := by
    have hnil : line.data ≠ [] := by
      rw [hdata, hws]
      exact joinWords_ne_nil w ws0 (hgood w (by rw [hws]; simp)).1
    have : line.data.length ≠ 0 := fun hz => hnil (List.length_eq_zero.mp hz)
    simp only [String.length]
    omega
  have hsplit : goSplitSpaceRuns line = ws.map String.mk := by
    unfold goSplitSpaceRuns
    rw [hdata, splitSp_joinWords ws hne hgood]
  unfold getStatsIOMetrics
  rw [hmap]
  simp only [hcap, if_neg hlen, hsplit, hget]

theorem mem_joinWords (c : Char) (ws : List (List Char)) (h : c ∈ joinWords ws) :
    c = ' ' ∨ ∃ w ∈ ws, c ∈ w := by
  induction ws with
  | nil => simp [joinWords] at h
  | cons w ws ih =>
    cases ws with
    | nil =>
      simp only [joinWords] at h
      exact Or.inr ⟨w, by simp, h⟩
    | cons w2 rest =>
      rw [joinWords_cons₂] at h
      rcases List.mem_append.mp h with hw | hcons
      · exact Or.inr ⟨w, by simp, hw⟩
      · rcases List.mem_cons.mp hcons with hsp | hrest
        · exact Or.inl hsp
        · rcases ih hrest with hsp | ⟨w3, hw3, hc3⟩
          · exact Or.inl hsp
          · exact Or.inr ⟨w3, by simp [List.mem_cons.mp hw3], hc3⟩

/-- A word of a stats line: nonempty, no space, no newline. -/
def okWord (w : List Char) : Prop := w ≠ [] ∧ ∀ c ∈ w, ¬ c = ' ' ∧ ¬ c = '\n'

theorem okWord_digits (s : String) (h : s.data ≠ [] ∧ ∀ c ∈ s.data, c.isDigit = true) :
    okWord s.data :=
  ⟨h.1, fun c hc => isDigit_ne_space_newline c (h.2 c hc)⟩

theorem okWord_unit (u : String) (h : u.data ≠ [] ∧ ∀ c ∈ u.data, c.isAlpha = true) :
    okWord ('[' :: (u.data ++ [']'])) := by
  refine ⟨by simp, fun c hc => ?_⟩
  rcases List.mem_cons.mp hc with h1 | h2
  · subst h1; exact ⟨by decide, by decide⟩
  · rcases List.mem_append.mp h2 with h3 | h4
    · exact isAlpha_ne_space_newline c (h.2 c h3)
    · simp at h4
      subst h4
      exact ⟨by decide, by decide⟩

theorem hnn_of_okWords (line : String) (ws : List (List Char))
    (hdata : line.data = joinWords ws) (hws : ∀ w ∈ ws, okWord w) :
    ∀ c ∈ line.data, ¬ c = '\n' := by
  intro c hc
  rw [hdata] at hc
  rcases mem_joinWords c ws hc with hsp | ⟨w, hw, hcw⟩
  · subst hsp; decide
  · exact ((hws w hw).2 c hcw).2

theorem hgood_of_okWords (ws : List (List Char)) (hws : ∀ w ∈ ws, okWord w) :
    ∀ w ∈ ws, w ≠ [] ∧ ∀ c ∈ w, ¬ c = ' ' :=
  fun w hw => ⟨(hws w hw).1, fun c hc => ((hws w hw).2 c hc).1⟩

/-- The SummaryLine shape of the spec with the unit token present:
`{name} {samples} samples [{units}] {min} {max} {sum}`. -/
def summaryLineWithUnit (s u mn mx sm : String) : String :=
  "write_bytes " ++ s ++ " samples [" ++ u ++ "] " ++ mn ++ " " ++ mx ++ " " ++ sm

/-- The SummaryLine shape with the unit token absent:
`{name} {samples} samples {min} {max} {sum}`. -/
def summaryLineNoUnit (s mn mx sm : String) : String :=
  "write_bytes " ++ s ++ " samples " ++ mn ++ " " ++ mx ++ " " ++ sm

/-- The record produced by `getStatsIOMetrics`. -/
def ioMetric (pn help : String) (v : ℚ) : LustreStatsMetric :=
  { title := pn, help := help, value := v, extraLabel := "", extraLabelValue := "" }

/-- C7 (amended): on a `write_bytes` summary line whose fields are digit
tokens, the parser extracts sample count, minimum, maximum and running sum
correctly when the unit token is present; when the unit token is absent,
the fixed field indices 4/5/6 shift, so the sample count is still correct
but the requested minimum yields the maximum field, the requested maximum
yields the sum field, and the requested running sum panics (index out of
range). -/
theorem getStatsIOMetrics_unit_token_behavior
    (pn s mn mx sm u : String) (vs vmn vmx vsm : ℚ)
    (hs : s.data ≠ [] ∧ ∀ c ∈ s.data, c.isDigit = true)
    (hmn : mn.data ≠ [] ∧ ∀ c ∈ mn.data, c.isDigit = true)
    (hmx : mx.data ≠ [] ∧ ∀ c ∈ mx.data, c.isDigit = true)
    (hsm : sm.data ≠ [] ∧ ∀ c ∈ sm.data, c.isDigit = true)
    (hu : u.data ≠ [] ∧ ∀ c ∈ u.data, c.isAlpha = true)
    (hvs : goParseFloat s = some vs) (hvmn : goParseFloat mn = some vmn)
    (hvmx : goParseFloat mx = some vmx) (hvsm : goParseFloat sm = some vsm) :
    (getStatsIOMetrics (summaryLineWithUnit s u mn mx sm) pn writeSamplesHelp =
        some (.ok [ioMetric pn writeSamplesHelp vs]) ∧
     getStatsIOMetrics (summaryLineWithUnit s u mn mx sm) pn writeMinimumHelp =
        some (.ok [ioMetric pn writeMinimumHelp vmn]) ∧
     getStatsIOMetrics (summaryLineWithUnit s u mn mx sm) pn writeMaximumHelp =
        some (.ok [ioMetric pn writeMaximumHelp vmx]) ∧
     getStatsIOMetrics (summaryLineWithUnit s u mn mx sm) pn writeTotalHelp =
        some (.ok [ioMetric pn writeTotalHelp vsm])) ∧
    (getStatsIOMetrics (summaryLineNoUnit s mn mx sm) pn writeSamplesHelp =
        some (.ok [ioMetric pn writeSamplesHelp vs]) ∧
     getStatsIOMetrics (summaryLineNoUnit s mn mx sm) pn writeMinimumHelp =
        some (.ok [ioMetric pn writeMinimumHelp vmx]) ∧
     getStatsIOMetrics (summaryLineNoUnit s mn mx sm) pn writeMaximumHelp =
        some (.ok [ioMetric pn writeMaximumHelp vsm]) ∧
     getStatsIOMetrics (summaryLineNoUnit s mn mx sm) pn writeTotalHelp = none) := by
  set lineU := summaryLineWithUnit s u mn mx sm with hlineU
  set wsU : List (List Char) := ["write_bytes".data, s.data, "samples".data,
    '[' :: (u.data ++ [']']), mn.data, mx.data, sm.data] with hwsU
  have hdataU : lineU.data = joinWords wsU := by
    simp [hlineU, summaryLineWithUnit, hwsU, joinWords, String.data_append, List.append_assoc]
  have hd2U : lineU.data = "write_bytes ".data ++ (s.data ++ (" samples [".data ++
      (u.data ++ ("] ".data ++ (mn.data ++ (" ".data ++ (mx.data ++
      (" ".data ++ sm.data)))))))) := by
    simp [hlineU, summaryLineWithUnit, String.data_append, List.append_assoc]
  have hokU : ∀ w ∈ wsU, okWord w := by
    intro w hw
    simp only [hwsU, List.mem_cons] at hw
    rcases hw with h | h | h | h | h | h | h | h
    all_goals try subst h
    · exact ⟨by decide, by decide⟩
    · exact okWord_digits s hs
    · exact ⟨by decide, by decide⟩
    · exact okWord_unit u hu
    · exact okWord_digits mn hmn
    · exact okWord_digits mx hmx
    · exact okWord_digits sm hsm
    · simp at h
  have hpreU : "write_bytes ".data.isPrefixOf lineU.data = true := by
    rw [hd2U]; exact List.isPrefixOf_iff_prefix.mpr (List.prefix_append _ _)
  have hnnU := hnn_of_okWords lineU wsU hdataU hokU
  have hgoodU := hgood_of_okWords wsU hokU
  have hneU : wsU ≠ [] := by simp [hwsU]
  set lineN := summaryLineNoUnit s mn mx sm with hlineN
  set wsN : List (List Char) := ["write_bytes".data, s.data, "samples".data,
    mn.data, mx.data, sm.data] with hwsN
  have hdataN : lineN.data = joinWords wsN := by
    simp [hlineN, summaryLineNoUnit, hwsN, joinWords, String.data_append, List.append_assoc]
  have hd2N : lineN.data = "write_bytes ".data ++ (s.data ++ (" samples ".data ++
      (mn.data ++ (" ".data ++ (mx.data ++ (" ".data ++ sm.data)))))) := by
    simp [hlineN, summaryLineNoUnit, String.data_append, List.append_assoc]
  have hokN : ∀ w ∈ wsN, okWord w := by
    intro w hw
    simp only [hwsN, List.mem_cons] at hw
    rcases hw with h | h | h | h | h | h | h
    all_goals try subst h
    · exact ⟨by decide, by decide⟩
    · exact okWord_digits s hs
    · exact ⟨by decide, by decide⟩
    · exact okWord_digits mn hmn
    · exact okWord_digits mx hmx
    · exact okWord_digits sm hsm
    · simp at h
  have hpreN : "write_bytes ".data.isPrefixOf lineN.data = true := by
    rw [hd2N]; exact List.isPrefixOf_iff_prefix.mpr (List.prefix_append _ _)
  have hnnN := hnn_of_okWords lineN wsN hdataN hokN
  have hgoodN := hgood_of_okWords wsN hokN
  have hneN : wsN ≠ [] := by simp [hwsN]
  refine ⟨⟨?_, ?_, ?_, ?_⟩, ⟨?_, ?_, ?_, ?_⟩⟩
  · exact getStatsIOMetrics_words pn writeSamplesHelp "write_bytes " 1 wsU lineU s vs
      rfl hdataU hpreU hnnU hneU hgoodU rfl hvs
  · exact getStatsIOMetrics_words pn writeMinimumHelp "write_bytes " 4 wsU lineU mn vmn
      rfl hdataU hpreU hnnU hneU hgoodU rfl hvmn
  · exact getStatsIOMetrics_words pn writeMaximumHelp "write_bytes " 5 wsU lineU mx vmx
      rfl hdataU hpreU hnnU hneU hgoodU rfl hvmx
  · exact getStatsIOMetrics_words pn writeTotalHelp "write_bytes " 6 wsU lineU sm vsm
      rfl hdataU hpreU hnnU hneU hgoodU rfl hvsm
  · exact getStatsIOMetrics_words pn writeSamplesHelp "write_bytes " 1 wsN lineN s vs
      rfl hdataN hpreN hnnN hneN hgoodN rfl hvs
  · exact getStatsIOMetrics_words pn writeMinimumHelp "write_bytes " 4 wsN lineN mx vmx
      rfl hdataN hpreN hnnN hneN hgoodN rfl hvmx
  · exact getStatsIOMetrics_words pn writeMaximumHelp "write_bytes " 5 wsN lineN sm vsm
      rfl hdataN hpreN hnnN hneN hgoodN rfl hvsm
  · exact getStatsIOMetrics_words_panic pn writeTotalHelp "write_bytes " 6 wsN lineN
      rfl hdataN hpreN hnnN hneN hgoodN rfl

/-- Witness for C7 (amended): the concrete instance from the repository
tests, with and without the unit token. -/
theorem getStatsIOMetrics_unit_token_behavior_witness :
    getStatsIOMetrics (summaryLineWithUnit "262" "bytes" "1048576" "1048576" "274726912")
        "pn" writeTotalHelp =
      some (.ok [ioMetric "pn" writeTotalHelp 274726912]) ∧
    getStatsIOMetrics (summaryLineNoUnit "262" "1048576" "1048576" "274726912")
        "pn" writeTotalHelp = none := by
  have h := getStatsIOMetrics_unit_token_behavior "pn" "262" "1048576" "1048576" "274726912"
    "bytes" 262 1048576 1048576 274726912
    (by constructor <;> decide) (by constructor <;> decide) (by constructor <;> decide)
    (by constructor <;> decide) (by constructor <;> decide)
    (by decide) (by decide) (by decide) (by decide)
  exact ⟨h.1.2.2.2, h.2.2.2.2⟩

/-- C7 counterexample: on a summary line of the claimed shape with the unit
token absent (`write_bytes 100 samples 5 10 900`, minimum field 5), asking
for the minimum returns 10 — the maximum field — so the claim that the
parser extracts the requested quantity correctly when the unit token is
absent is false. -/
theorem getStatsIOMetrics_no_unit_counterexample :
    getStatsIOMetrics "write_bytes 100 samples 5 10 900" "pn" writeMinimumHelp =
      some (.ok [ioMetric "pn" writeMinimumHelp 10]) ∧ (10 : ℚ) ≠ 5 := by
  constructor
  · rfl
  · norm_num

/-- C4 (amended): the parsers return an empty result and no error when the
expected pattern is wholly absent — a missing target line for the
SummaryLine parser, a file with no numeric token at all for the NumericList
parser — but a NumericList file that contains at least one number and no
number at the requested fixed index makes `parseSysStatsFile` panic
(`statsResults[index]` out of range) instead of returning empty. -/
theorem parsers_on_absent_pattern
    (statsFile pn helpText lit : String) (idx : Nat) :
    ((statsIOBytesMap.find? (fun e => e.1 = helpText)).map (·.2) = some (lit, idx) →
      findPrefixPos lit.data statsFile.data = none →
      getStatsIOMetrics statsFile pn helpText = some (.ok [])) ∧
    (regexCaptureNumbers statsFile = [] →
      parseSysStatsFile helpText pn statsFile = some (.ok none)) ∧
    (((procsysStatsMap.find? (fun e => e.1 = helpText)).map (·.2)).getD 0 = idx →
      regexCaptureNumbers statsFile ≠ [] →
      (regexCaptureNumbers statsFile).length ≤ idx →
      parseSysStatsFile helpText pn statsFile = none) := by
  refine ⟨fun hmap habs => ?_, fun hempty => ?_, fun hidx hne hlen => ?_⟩
  · have hcap : captureToEol lit statsFile = "" := by
      unfold captureToEol
      rw [habs]
    unfold getStatsIOMetrics
    rw [hmap]
    simp [hcap]
  · unfold parseSysStatsFile
    rw [hempty]
    simp
  · have hlenpos : ¬ (regexCaptureNumbers statsFile).length < 1 := by
      have : (regexCaptureNumbers statsFile).length ≠ 0 :=
        fun hz => hne (List.length_eq_zero.mp hz)
      omega
    have hget : (regexCaptureNumbers statsFile).get? idx = none :=
      List.get?_eq_none.mpr hlen
    unfold parseSysStatsFile
    rw [if_neg hlenpos, hidx]
    simp only [hget]

/-- Witness for C4 (amended): a stats file without the `write_bytes` line
gives an empty SummaryLine result; an empty lnet stats file gives the
zero-value metric; and an lnet stats file holding a single number panics
when index 1 (`lnetMaximumHelp`) is requested. -/
theorem parsers_on_absent_pattern_witness :
    getStatsIOMetrics "read_bytes 1 samples [bytes] 2 3 4" "pn" writeTotalHelp =
      some (.ok []) ∧
    parseSysStatsFile lnetAllocatedHelp "pn" "no numbers" = some (.ok none) ∧
    parseSysStatsFile lnetMaximumHelp "pn" "5" = none := by
  refine ⟨?_, ?_, ?_⟩
  · exact (parsers_on_absent_pattern "read_bytes 1 samples [bytes] 2 3 4" "pn"
      writeTotalHelp "write_bytes " 6).1 rfl (by decide)
  · exact (parsers_on_absent_pattern "no numbers" "pn" lnetAllocatedHelp "" 0).2.1 (by decide)
  · exact (parsers_on_absent_pattern "5" "pn" lnetMaximumHelp "" 1).2.2 (by decide)
      (by decide) (by decide)

/-- C4 counterexample: the NumericList parser applied to the file `"5"`
(one numeric token) with the quantity at fixed index 1 requested
(`lnetMaximumHelp`) panics — `none` — instead of returning an empty result
with no error as the claim states. -/
theorem parseSysStatsFile_short_file_counterexample :
    parseSysStatsFile lnetMaximumHelp "pn" "5" = none := rfl

/-- C8: a histogram data line with exactly one whitespace-separated field
(here `"x:"`) drives `splitBRWStats` into the single-column branch, which
reads `fields[1]` and panics (index out of range) — the line is neither
skipped nor parsed. -/
theorem splitBRWStats_one_field_line_panics :
    splitBRWStats "pages per bulk r/w     rpcs  %   cum % |  rpcs % cum %\nx:" = none := rfl

/-! ## The scrape coordinator (`runner.go`)

`runner` keeps the set of Running workers (a Go map keyed by pointer,
modelled as a list of workers carrying a numeric identity `wid`) and the
`lastSuccess` pointer.  Times are naturals in nanoseconds; `time.Second` is
`timeSecondNs`.  The accumulated metric output of a finished round is kept
abstract as a list of strings.  `MAX_WORKER` is the package variable with
initial value 4.
-/

def maxWorker : Nat := 4

def timeSecondNs : Nat := 1000000000

/-- A `worker`: creation time, completion time and accumulated output (the
other fields of the Go struct do not affect the coordinator logic). -/
structure RWorker where
  wid : Nat
  creat : Nat
  endT : Nat
  metrics : List String
deriving Repr, DecidableEq

/-- The `runner` state: the Running set and the last completed round. -/
structure RunnerState where
  workers : List RWorker
  lastSuccess : Option RWorker
deriving Repr, DecidableEq

/-- The selection loop of `getRunnerWorker` when the ceiling is reached:
`ret` starts at the first worker and is replaced whenever
`ret.creat.Before(worker.creat)` — so the result is a worker with the
latest creation time (the first such worker in iteration order on ties). -/
def pickByLoop : List RWorker → Option RWorker
  | [] => none
  | w :: ws => some (ws.foldl (fun ret w2 => if ret.creat < w2.creat then w2 else ret) w)

/-- `runner.getRunnerWorker`: if `MAX_WORKER` or more rounds are Running,
return one of them by the selection loop and change nothing; otherwise
create a new worker (fresh identity `fid`, creation time `now`), insert it
into the Running set and start it. -/
def getRunnerWorker (s : RunnerState) (now fid : Nat) : Option RWorker × RunnerState :=
  if maxWorker ≤ s.workers.length then
    (pickByLoop s.workers, s)
  else
    let w : RWorker := { wid := fid, creat := now, endT := 0, metrics := [] }
    (some w, { s with workers := w :: s.workers })

/-- `runner.doneForWorker`: record the finished worker as `lastSuccess` and
delete it from the Running set (`delete(r.workers, w)`). -/
def doneForWorker (s : RunnerState) (w : RWorker) : RunnerState :=
  { workers := s.workers.filter (fun x => x.wid ≠ w.wid), lastSuccess := some w }

/-- Outcome of `runner.updateV2` for one collection request: either the
cached output of a fresh Completed round is returned directly, or the
request is attached to (and waits for) a worker. -/
inductive UpdateOutcome
  | freshHit (metrics : List String)
  | attached (w : Option RWorker)
deriving Repr, DecidableEq

/-- `runner.updateV2`: if the last completed round ended within one second
of `now`, return its accumulated output directly; otherwise obtain a worker
from `getRunnerWorker` and wait on it.  Go compares
`now.Sub(lastSuccess.end) <= time.Second` on a signed duration; for
`endT > now` that difference is negative and the comparison also holds,
matching truncated subtraction on `Nat`. -/
def updateV2 (s : RunnerState) (now fid : Nat) : UpdateOutcome × RunnerState :=
  match s.lastSuccess with
  | some w =>
    if now - w.endT ≤ timeSecondNs then (.freshHit w.metrics, s)
    else
      let r := getRunnerWorker s now fid
      (.attached r.1, r.2)
  | none =>
    let r := getRunnerWorker s now fid
    (.attached r.1, r.2)

/-- Reachable coordinator states: from the initial empty runner, any
interleaving of collection requests (`updateV2`) and round completions
(`doneForWorker`). -/
inductive RunnerReach : RunnerState → Prop
  | init : RunnerReach { workers := [], lastSuccess := none }
  | update (s : RunnerState) (now fid : Nat) (h : RunnerReach s) :
      RunnerReach (updateV2 s now fid).2
  | done (s : RunnerState) (w : RWorker) (h : RunnerReach s) :
      RunnerReach (doneForWorker s w)

/-- C5: at every reachable coordinator state the Running set holds at most
`MAX_WORKER` rounds — no request sequence creates more than `MAX_WORKER`
simultaneously in-flight collection rounds. -/
theorem runner_worker_ceiling (s : RunnerState) (h : RunnerReach s) :
    s.workers.length ≤ maxWorker := by
  induction h with
  | init => simp [maxWorker]
  | update s now fid hr ih =>
    unfold updateV2
    cases hls : s.lastSuccess with
    | some w =>
      by_cases hfresh : now - w.endT ≤ timeSecondNs
      · simpa [hls, hfresh] using ih
      · simp only [hls, if_neg hfresh]
        unfold getRunnerWorker
        split
        · exact ih
        · simp only [List.length_cons]
          omega
    | none =>
      simp only [hls]
      unfold getRunnerWorker
      split
      · exact ih
      · simp only [List.length_cons]
        omega
  | done s w hr ih =>
    calc (doneForWorker s w).workers.length
        ≤ s.workers.length := List.length_filter_le _ _
      _ ≤ maxWorker := ih

/-- Witness for C5: a concrete reachable state — two requests issued at
times 5 and 6 from the initial state — satisfies the ceiling. -/
theorem runner_worker_ceiling_witness :
    (updateV2 (updateV2 { workers := [], lastSuccess := none } 5 1).2 6 2).2.workers.length
      ≤ maxWorker :=
  runner_worker_ceiling _
    (RunnerReach.update _ 6 2 (RunnerReach.update _ 5 1 RunnerReach.init))

theorem pickByLoop_latest (ws : List RWorker) (w0 : RWorker) :
    (ws.foldl (fun ret w2 => if ret.creat < w2.creat then w2 else ret) w0) ∈ w0 :: ws ∧
    ∀ x ∈ w0 :: ws,
      x.creat ≤ (ws.foldl (fun ret w2 => if ret.creat < w2.creat then w2 else ret) w0).creat := by
  induction ws generalizing w0 with
  | nil =>
    refine ⟨by simp, fun x hx => ?_⟩
    simp only [List.foldl_nil]
    have : x = w0 := by simpa using hx
    rw [this]
  | cons wh rest ih =>
    obtain ⟨hmem, hmax⟩ := ih (if w0.creat < wh.creat then wh else w0)
    have hstart := hmax (if w0.creat < wh.creat then wh else w0)
      (List.mem_cons.mpr (Or.inl rfl))
    have hw0 : w0.creat ≤ (if w0.creat < wh.creat then wh else w0).creat := by
      by_cases hc : w0.creat < wh.creat <;> simp [hc] <;> omega
    have hwh : wh.creat ≤ (if w0.creat < wh.creat then wh else w0).creat := by
      by_cases hc : w0.creat < wh.creat <;> simp [hc] <;> omega
    constructor
    · simp only [List.foldl_cons]
      rcases List.mem_cons.mp hmem with heq | hmem2
      · rw [heq]
        by_cases hc : w0.creat < wh.creat
        · simp only [if_pos hc]
          exact List.mem_cons.mpr (Or.inr (List.mem_cons.mpr (Or.inl rfl)))
        · simp only [if_neg hc]
          exact List.mem_cons.mpr (Or.inl rfl)
      · exact List.mem_cons.mpr (Or.inr (List.mem_cons.mpr (Or.inr hmem2)))
    · intro x hx
      simp only [List.foldl_cons]
      rcases List.mem_cons.mp hx with heq | hx2
      · rw [heq]
        exact le_trans hw0 hstart
      · rcases List.mem_cons.mp hx2 with heq | hx3
        · rw [heq]
          exact le_trans hwh hstart
        · exact hmax x (List.mem_cons.mpr (Or.inr hx3))

/-- C2 (amended): when the Running set already holds `MAX_WORKER` or more
rounds, the coordinator creates no new round and attaches the request to a
currently-Running round with the *latest* creation time — the newest
round, not the oldest as claimed. -/
theorem getRunnerWorker_at_ceiling (s : RunnerState) (now fid : Nat)
    (h : maxWorker ≤ s.workers.length) :
    (getRunnerWorker s now fid).2 = s ∧
    ∃ w, (getRunnerWorker s now fid).1 = some w ∧ w ∈ s.workers ∧
      ∀ x ∈ s.workers, x.creat ≤ w.creat := by
  obtain ⟨w0, rest, hws⟩ : ∃ w0 rest, s.workers = w0 :: rest := by
    cases hcase : s.workers with
    | nil =>
      rw [hcase] at h
      simp [maxWorker] at h
    | cons a b => exact ⟨a, b, rfl⟩
  constructor
  · unfold getRunnerWorker
    rw [if_pos h]
  · unfold getRunnerWorker
    rw [if_pos h, hws]
    rcases pickByLoop_latest rest w0 with ⟨hmem, hmax⟩
    exact ⟨_, rfl, hmem, hmax⟩

/-- The four Running rounds (creation times 0,1,2,3) used to exercise the
at-ceiling path of `getRunnerWorker` on concrete data. -/
def fourWorkers : List RWorker :=
  [{ wid := 0, creat := 0, endT := 0, metrics := [] },
   { wid := 1, creat := 1, endT := 0, metrics := [] },
   { wid := 2, creat := 2, endT := 0, metrics := [] },
   { wid := 3, creat := 3, endT := 0, metrics := [] }]

def fourWorkerState : RunnerState := { workers := fourWorkers, lastSuccess := none }

/-- Witness for C2 (amended): at the ceiling with four Running rounds of
creation times 0,1,2,3 the attached round exists, lies in the Running set,
has the maximal creation time, and no new round is created. -/
theorem getRunnerWorker_at_ceiling_witness :
    (getRunnerWorker fourWorkerState 10 99).2 = fourWorkerState ∧
    ∃ w, (getRunnerWorker fourWorkerState 10 99).1 = some w ∧
      w ∈ fourWorkerState.workers ∧
      ∀ x ∈ fourWorkerState.workers, x.creat ≤ w.creat :=
  getRunnerWorker_at_ceiling fourWorkerState 10 99 (by decide)

/-- C2 counterexample: with four Running rounds created at times 0,1,2,3,
the request is attached to the round created at time 3 — the newest — even
though the round created at time 0 (the oldest) is Running, refuting the
claim that the request attaches to the round with the earliest creation
time among the Running set. -/
theorem getRunnerWorker_picks_newest_counterexample :
    (getRunnerWorker fourWorkerState 10 99).1 =
      some { wid := 3, creat := 3, endT := 0, metrics := [] } ∧
    ({ wid := 0, creat := 0, endT := 0, metrics := [] } : RWorker) ∈ fourWorkerState.workers ∧
    (0 : Nat) < 3 := by
  refine ⟨rfl, ?_, by norm_num⟩
  simp [fourWorkerState, fourWorkers]

/-- C1: a collection request arriving while the last completed round ended
within the freshness window returns that round's accumulated output
directly and leaves the coordinator state unchanged — no round is created
and no worker is consulted (hence no file is read); the second of two such
requests receives the identical metric list and triggers no new round
either. -/
theorem updateV2_fresh_hit (s : RunnerState) (w : RWorker) (now1 now2 fid1 fid2 : Nat)
    (hls : s.lastSuccess = some w)
    (h1 : now1 - w.endT ≤ timeSecondNs)
    (h2 : now2 - w.endT ≤ timeSecondNs) :
    updateV2 s now1 fid1 = (.freshHit w.metrics, s) ∧
    updateV2 (updateV2 s now1 fid1).2 now2 fid2 = (.freshHit w.metrics, s) := by
  have hu1 : updateV2 s now1 fid1 = (.freshHit w.metrics, s) := by
    unfold updateV2
    rw [hls]
    simp [h1]
  refine ⟨hu1, ?_⟩
  rw [hu1]
  unfold updateV2
  rw [hls]
  simp [h2]

/-- The coordinator state holding one completed round that ended at time
100 with output `["m1", "m2"]`. -/
def freshDoneState : RunnerState :=
  { workers := [],
    lastSuccess := some { wid := 7, creat := 90, endT := 100, metrics := ["m1", "m2"] } }

/-- Witness for C1: two requests, half a window and a full window after the
round completed at time 100, both receive `["m1", "m2"]` directly. -/
theorem updateV2_fresh_hit_witness :
    updateV2 freshDoneState (100 + 500000000) 11 =
      (.freshHit ["m1", "m2"], freshDoneState) ∧
    updateV2 (updateV2 freshDoneState (100 + 500000000) 11).2 (100 + 1000000000) 12 =
      (.freshHit ["m1", "m2"], freshDoneState) :=
  updateV2_fresh_hit freshDoneState
    { wid := 7, creat := 90, endT := 100, metrics := ["m1", "m2"] }
    (100 + 500000000) (100 + 1000000000) 11 12 rfl (by decide) (by decide)

/-! ## The per-round file cache (`fileReader`)

`fileReader` owns two maps guarded by one mutex: `files : path → bytes`
(with a `nil` placeholder pre-marking in-flight prefetches) and
`pathGlobs : pattern → paths`.  The embedding serializes the mutex-guarded
effects: each submitted pool task runs its body exactly once, and
`wait`/`StopWait` only synchronize.  `disk` is the file system snapshot for
the round (`ioutil.ReadFile`, `none` = I/O error) and `glob` the pattern
resolver (`filepath.Glob`); `log` records every actual disk read issued. -/

def assocFind {α : Type} (m : List (String × α)) (k : String) : Option α :=
  (m.find? (fun e => e.1 = k)).map (·.2)

def assocPut {α : Type} (m : List (String × α)) (k : String) (v : α) : List (String × α) :=
  m.filter (fun e => ¬ e.1 = k) ++ [(k, v)]

theorem assocFind_put_self {α : Type} (m : List (String × α)) (k : String) (v : α) :
    assocFind (assocPut m k v) k = some v := by
  unfold assocFind assocPut
  induction m with
  | nil => simp
  | cons e m ih =>
    by_cases he : e.1 = k
    · simpa [he] using ih
    · simpa [List.filter_cons, he, List.find?] using ih

theorem assocFind_put_other {α : Type} (m : List (String × α)) (k k2 : String) (v : α)
    (hne : ¬ k2 = k) :
    assocFind (assocPut m k v) k2 = assocFind m k2 := by
  have hkk : ¬ k = k2 := fun h => hne h.symm
  unfold assocFind assocPut
  induction m with
  | nil =>
    simp only [List.filter_nil, List.nil_append]
    rw [List.find?_cons_of_neg _ (by simpa using hkk), List.find?_nil]
  | cons e m ih =>
    by_cases he : e.1 = k
    · have he2 : ¬ e.1 = k2 := by rw [he]; exact hkk
      rw [List.filter_cons_of_neg (by simp [he]), ih,
        List.find?_cons_of_neg _ (by simpa using he2)]
    · rw [List.filter_cons_of_pos (by simp [he])]
      by_cases he2 : e.1 = k2
      · rw [List.cons_append, List.find?_cons_of_pos _ (by simpa using he2),
          List.find?_cons_of_pos _ (by simpa using he2)]
      · rw [List.cons_append, List.find?_cons_of_neg _ (by simpa using he2),
          List.find?_cons_of_neg _ (by simpa using he2)]
        exact ih

/-- Appending a read of a different path does not change the count. -/
theorem count_append_ne (l : List String) (p q : String) (h : ¬ q = p) :
    (l ++ [q]).count p = l.count p := by
  rw [List.count_append]
  simp [List.count_singleton']
  exact h

theorem count_append_self (l : List String) (p : String) :
    (l ++ [p]).count p = l.count p + 1 := by
  rw [List.count_append]
  simp

/-- The state of one round's `fileReader`, plus a log of issued disk reads. -/
structure FRState where
  files : List (String × Option String)
  pathGlobs : List (String × List String)
  log : List String
deriving Repr, DecidableEq

def frInit : FRState := { files := [], pathGlobs := [], log := [] }

/-- `fileReader.readFile`: return the cached bytes when a non-nil entry
exists, otherwise read from disk, caching only on success.  (The Go code
calls `filepath.Clean` first; paths in this development are already
clean.) -/
def readFile (disk : String → Option String) (fr : FRState) (p : String) :
    Option String × FRState :=
  match assocFind fr.files p with
  | some (some d) => (some d, fr)
  | _ =>
    match disk p with
    | some d =>
      (some d, { fr with files := assocPut fr.files p (some d), log := fr.log ++ [p] })
    | none => (none, { fr with log := fr.log ++ [p] })

/-- The closure submitted to the worker pool by `fileReader.readFileAsync`:
read from disk, store only on success. -/
def readFileAsync (disk : String → Option String) (fr : FRState) (p : String) : FRState :=
  match disk p with
  | some d => { fr with files := assocPut fr.files p (some d), log := fr.log ++ [p] }
  | none => { fr with log := fr.log ++ [p] }

/-- The prefetch step of `fileReader.glob` for one resolved path: if the
path has no `files` entry yet, pre-mark it with the nil placeholder and
submit the asynchronous read. -/
def prefetchOne (disk : String → Option String) (fr : FRState) (p : String) : FRState :=
  match assocFind fr.files p with
  | some _ => fr
  | none => readFileAsync disk { fr with files := assocPut fr.files p none } p

def prefetchList (disk : String → Option String) (fr : FRState) (ps : List String) : FRState :=
  ps.foldl (prefetchOne disk) fr

/-- `fileReader.glob`: memoize the pattern expansion; with the `read` flag
set, prefetch every resolved path that has no cache entry yet. -/
def frGlob (glob : String → List String) (disk : String → Option String)
    (fr : FRState) (pattern : String) (read : Bool) : List String × FRState :=
  let r :=
    match assocFind fr.pathGlobs pattern with
    | some ps => (ps, fr)
    | none =>
      let ps := glob pattern
      (ps, { fr with pathGlobs := assocPut fr.pathGlobs pattern ps })
  if read then (r.1, prefetchList disk r.2 r.1) else r

/-- The operations a round performs against its `fileReader`. -/
inductive FROp
  | read (p : String)
  | glob (pattern : String) (withRead : Bool)

def frStep (glob : String → List String) (disk : String → Option String)
    (fr : FRState) : FROp → FRState
  | .read p => (readFile disk fr p).2
  | .glob pattern withRead => (frGlob glob disk fr pattern withRead).2

def frRun (glob : String → List String) (disk : String → Option String)
    (ops : List FROp) : FRState :=
  ops.foldl (frStep glob disk) frInit

/-- Cache invariant for a path `p` whose disk read succeeds with `d`:
either the bytes are cached and at most one disk read of `p` happened, or
there is no entry and no disk read of `p` happened yet. -/
def FRInv (p d : String) (fr : FRState) : Prop :=
  (assocFind fr.files p = some (some d) ∧ fr.log.count p ≤ 1) ∨
  (assocFind fr.files p = none ∧ fr.log.count p = 0)

theorem FRInv_readFile (disk : String → Option String) (p d q : String) (fr : FRState)
    (hdisk : disk p = some d) (hinv : FRInv p d fr) :
    FRInv p d (readFile disk fr q).2 := by
  by_cases hpq : q = p
  · subst hpq
    rcases hinv with ⟨hc, hl⟩ | ⟨hc, hl⟩
    · unfold readFile
      rw [hc]
      exact Or.inl ⟨hc, hl⟩
    · unfold readFile
      rw [hc, hdisk]
      exact Or.inl ⟨by simp [assocFind_put_self], by rw [count_append_self]; omega⟩
  · unfold readFile
    rcases hq : assocFind fr.files q with _ | d2
    · rcases hd : disk q with _ | dq
      all_goals {
        simp only [hq, hd]
        rcases hinv with ⟨hc, hl⟩ | ⟨hc, hl⟩
        · exact Or.inl ⟨by simpa [assocFind_put_other _ q p _ (by exact fun h => hpq h.symm)]
            using hc, by rw [count_append_ne _ p q hpq]; simp [hl]⟩
        · exact Or.inr ⟨by simpa [assocFind_put_other _ q p _ (by exact fun h => hpq h.symm)]
            using hc, by rw [count_append_ne _ p q hpq]; simp [hl]⟩
      }
    · rcases d2 with _ | dq
      · rcases hd : disk q with _ | dq2
        all_goals {
          simp only [hq, hd]
          rcases hinv with ⟨hc, hl⟩ | ⟨hc, hl⟩
          · exact Or.inl ⟨by simpa [assocFind_put_other _ q p _ (by exact fun h => hpq h.symm)]
              using hc, by rw [count_append_ne _ p q hpq]; simp [hl]⟩
          · exact Or.inr ⟨by simpa [assocFind_put_other _ q p _ (by exact fun h => hpq h.symm)]
              using hc, by rw [count_append_ne _ p q hpq]; simp [hl]⟩
        }
      · simp only [hq]
        exact hinv

/-- Prefetching preserves the invariant: an already-present entry is left
alone; otherwise the path is pre-marked and read once, and the successful
read caches the bytes. -/
theorem FRInv_prefetchOne (disk : String → Option String) (p d q : String) (fr : FRState)
    (hdisk : disk p = some d) (hinv : FRInv p d fr) :
    FRInv p d (prefetchOne disk fr q) := by
  by_cases hpq : q = p
  · subst hpq
    rcases hinv with ⟨hc, hl⟩ | ⟨hc, hl⟩
    · unfold prefetchOne
      rw [hc]
      exact Or.inl ⟨hc, hl⟩
    · unfold prefetchOne
      rw [hc]
      unfold readFileAsync
      rw [hdisk]
      exact Or.inl ⟨by simp [assocFind_put_self],
        by simp only [count_append_self]; simp [hl]⟩
  · have hother : ∀ (m : List (String × Option String)) (v : Option String),
        assocFind (assocPut m q v) p = assocFind m p :=
      fun m v => assocFind_put_other m q p v (fun h => hpq h.symm)
    unfold prefetchOne
    rcases hq : assocFind fr.files q with _ | e
    · unfold readFileAsync
      rcases hd : disk q with _ | dq
      all_goals {
        simp only [hd]
        rcases hinv with ⟨hc, hl⟩ | ⟨hc, hl⟩
        · exact Or.inl ⟨by simp [hother, hc], by rw [count_append_ne _ p q hpq]; simp [hl]⟩
        · exact Or.inr ⟨by simp [hother, hc], by rw [count_append_ne _ p q hpq]; simp [hl]⟩
      }
    · exact hinv

theorem FRInv_prefetchList (disk : String → Option String) (p d : String)
    (ps : List String) (fr : FRState)
    (hdisk : disk p = some d) (hinv : FRInv p d fr) :
    FRInv p d (prefetchList disk fr ps) := by
  induction ps generalizing fr with
  | nil => exact hinv
  | cons q qs ih =>
    exact ih _ (FRInv_prefetchOne disk p d q fr hdisk hinv)

theorem FRInv_frGlob (glob : String → List String) (disk : String → Option String)
    (p d pattern : String) (read : Bool) (fr : FRState)
    (hdisk : disk p = some d) (hinv : FRInv p d fr) :
    FRInv p d (frGlob glob disk fr pattern read).2 := by
  have hbase : ∀ fr2 : FRState, fr2.files = fr.files → fr2.log = fr.log → FRInv p d fr2 := by
    intro fr2 hf hl
    unfold FRInv at hinv ⊢
    rw [hf, hl]
    exact hinv
  unfold frGlob
  rcases hpat : assocFind fr.pathGlobs pattern with _ | ps
  · cases read with
    | false => exact hbase _ rfl rfl
    | true => exact FRInv_prefetchList disk p d _ _ hdisk (hbase _ rfl rfl)
  · cases read with
    | false => exact hinv
    | true => exact FRInv_prefetchList disk p d _ _ hdisk hinv

theorem FRInv_frStep (glob : String → List String) (disk : String → Option String)
    (p d : String) (fr : FRState) (op : FROp)
    (hdisk : disk p = some d) (hinv : FRInv p d fr) :
    FRInv p d (frStep glob disk fr op) := by
  cases op with
  | read q => exact FRInv_readFile disk p d q fr hdisk hinv
  | glob pattern withRead => exact FRInv_frGlob glob disk p d pattern withRead fr hdisk hinv

theorem FRInv_frRun (glob : String → List String) (disk : String → Option String)
    (p d : String) (ops : List FROp) (hdisk : disk p = some d) :
    FRInv p d (frRun glob disk ops) := by
  have hgen : ∀ fr : FRState, FRInv p d fr → FRInv p d (ops.foldl (frStep glob disk) fr) := by
    induction ops with
    | nil => exact fun fr h => h
    | cons op rest ih =>
      exact fun fr h => ih _ (FRInv_frStep glob disk p d fr op hdisk h)
  exact hgen frInit (Or.inr ⟨rfl, rfl⟩)

theorem readFile_cache_hit (disk : String → Option String) (fr : FRState) (p d : String)
    (h : assocFind fr.files p = some (some d)) :
    readFile disk fr p = (some d, fr) := by
  unfold readFile
  rw [h]

/-- C6: within one round, a path whose disk read succeeds is read from disk
at most once, no matter how many metric definitions glob, prefetch or read
it: after any operation sequence the read log holds at most one entry for
the path; reading it yields the disk bytes, still with at most one logged
disk read; and any subsequent read returns the cached bytes without
touching the state (hence without another disk read). -/
theorem fileReader_reads_disk_at_most_once (glob : String → List String)
    (disk : String → Option String) (ops : List FROp) (p d : String)
    (hdisk : disk p = some d) :
    (frRun glob disk ops).log.count p ≤ 1 ∧
    (readFile disk (frRun glob disk ops) p).1 = some d ∧
    ((readFile disk (frRun glob disk ops) p).2).log.count p ≤ 1 ∧
    readFile disk ((readFile disk (frRun glob disk ops) p).2) p =
      (some d, (readFile disk (frRun glob disk ops) p).2) := by
  have hinv := FRInv_frRun glob disk p d ops hdisk
  rcases hinv with ⟨hc, hl⟩ | ⟨hc, hl⟩
  · have hit := readFile_cache_hit disk _ p d hc
    rw [hit]
    exact ⟨hl, rfl, hl, readFile_cache_hit disk _ p d hc⟩
  · have hmiss : readFile disk (frRun glob disk ops) p =
        (some d, { frRun glob disk ops with
          files := assocPut (frRun glob disk ops).files p (some d),
          log := (frRun glob disk ops).log ++ [p] }) := by
      unfold readFile
      rw [hc, hdisk]
    rw [hmiss]
    refine ⟨hl.le.trans (by omega), rfl, by rw [count_append_self, hl], ?_⟩
    exact readFile_cache_hit disk _ p d (by simp [assocFind_put_self])

/-- Witness for C6: a disk with one file `"a"`, prefetched by a glob and
then read twice. -/
theorem fileReader_reads_disk_at_most_once_witness :
    (frRun (fun _ => ["a"]) (fun q => if q = "a" then some "bytes" else none)
        [FROp.glob "pat" true, FROp.read "a", FROp.read "a"]).log.count "a" ≤ 1 ∧
    (readFile (fun q => if q = "a" then some "bytes" else none)
        (frRun (fun _ => ["a"]) (fun q => if q = "a" then some "bytes" else none)
          [FROp.glob "pat" true, FROp.read "a", FROp.read "a"]) "a").1 = some "bytes" :=
  have h := fileReader_reads_disk_at_most_once (fun _ => ["a"])
    (fun q => if q = "a" then some "bytes" else none)
    [FROp.glob "pat" true, FROp.read "a", FROp.read "a"] "a" "bytes" (by decide)
  ⟨h.1, h.2.1⟩

/-! ## JobBlock parsing (procfs_v2.go and procfs.go)

The v2 path splits the file into blocks on `"- "`, parses each block once
into `jobid ↦ (field ↦ numbers)` (`parsingJobStats`), and then selects one
number per job (`getJobStatsIOMetrics`).  The v1 path of procfs.go selects
directly from the block text (`getJobStatsByOperation`).
-/

/-- `getValidUtf8String` (defined in a repository file whose body only its
test and callers appear under src/): it removes invalid UTF-8 bytes from a
string.  Lean strings are always valid UTF-8, so on every representable
input the function is the identity. -/
def getValidUtf8String (s : String) : String := s

/-- `procfsV2Ctx.getJobID`: find `job_id:` in the line and return the
trimmed remainder up to the end of line.  The second branch slices
`line[idx+len("job_id:"):idx2]` where `idx2` is an index *relative* to
`idx` used as an absolute position; when that slice is inverted Go panics
(`none`).  The branch is unreachable from `parsingJobStats`, whose lines
contain no newline. -/
def getJobID (line : String) : Option (Except String String) :=
  match findPrefixPos "job_id:".data line.data with
  | none => some (.error "not found")
  | some idx =>
    let rest := line.data.drop idx
    match findPrefixPos ['\n'] rest with
    | none =>
      some (.ok (getValidUtf8String (goTrimSpace
        (String.mk (line.data.drop (idx + "job_id:".length))))))
    | some idx2 =>
      if idx + "job_id:".length ≤ idx2 then
        some (.ok (getValidUtf8String (goTrimSpace
          (String.mk ((line.data.take idx2).drop (idx + "job_id:".length))))))
      else none

/-- `procfsV2Ctx.parsingJobStats`: the first line carries the job id; every
further line with a colon at position ≥ 1 contributes `key ↦ numbers`,
where the numbers are the numeric tokens right of (and including) the
colon, parsed with `ParseInt` (failures skipped).  Map writes overwrite. -/
def parsingJobStats (job : String) :
    Option (Except String (String × List (String × List Int))) :=
  let lines := goSplitChar '\n' job
  if lines.length < 1 then some (.error "invalid content for parsing jobStat")
  else
    match getJobID (lines.getD 0 "") with
    | none => none
    | some (.error _) => some (.error "can not found jobid in content")
    | some (.ok jobid) =>
      let j := lines.tail.foldl
        (fun (m : List (String × List Int)) line =>
          match findPrefixPos [':'] line.data with
          | none => m
          | some idx =>
            if idx < 1 then m
            else
              let key := goTrimSpace (String.mk (line.data.take idx))
              let numStrs := regexCaptureNumbers (String.mk (line.data.drop idx))
              let nums := numStrs.filterMap (fun s => goParseInt (goTrimSpace s))
              assocPut m key nums) []
      some (.ok (jobid, j))

/-- `jobStatsMultistatParsingStruct`: help text ↦ (numeric position within
the line, field-name pattern). -/
def jobStatsMultistatParsingStruct : List (String × Nat × String) := [
  (readSamplesHelp, (0, "read_bytes")),
  (readMinimumHelp, (1, "read_bytes")),
  (readMaximumHelp, (2, "read_bytes")),
  (readTotalHelp, (3, "read_bytes")),
  (writeSamplesHelp, (0, "write_bytes")),
  (writeMinimumHelp, (1, "write_bytes")),
  (writeMaximumHelp, (2, "write_bytes")),
  (writeTotalHelp, (3, "write_bytes"))]

/-- `procfsV2Ctx.getJobStatsIOMetrics`: for each job of the parsed map,
emit one record holding the number at the fixed position of the requested
field; jobs missing the field or with too few numbers are skipped.  The Go
error result is always nil. -/
def getJobStatsIOMetrics (jobsStats : List (String × List (String × List Int)))
    (promName helpText : String) : List LustreJobsMetric :=
  match (jobStatsMultistatParsingStruct.find? (fun e => e.1 = helpText)).map (·.2) with
  | none => []
  | some (idx, pattern) =>
    jobsStats.foldl
      (fun acc entry =>
        match assocFind entry.2 pattern with
        | none => acc
        | some vals =>
          if vals.length ≤ idx then acc
          else acc ++ [{ jobID := entry.1,
                         metric := { title := promName, help := helpText,
                                     value := ((vals.getD idx 0 : Int) : ℚ),
                                     extraLabel := "", extraLabelValue := "" } }]) []

/-- The fixed operation catalog of `jobStatsOperationSlice` (v2). -/
def jobStatsOperationSlice : List String :=
  ["open", "close", "mknod", "link", "unlink", "mkdir", "rmdir", "rename", "getattr",
   "setattr", "getxattr", "setxattr", "statfs", "sync", "samedir_rename",
   "crossdir_rename", "punch", "destroy", "create", "get_info", "set_info", "quotactl"]

/-- `procfsV2Ctx.getJobStatsOperationMetrics`: one record per job per
catalog operation present in the job's field map (numeric position 0),
with the operation name as extra label. -/
def getJobStatsOperationMetrics (jobsStats : List (String × List (String × List Int)))
    (promName helpText : String) : List LustreJobsMetric :=
  jobsStats.foldl
    (fun acc entry =>
      acc ++ jobStatsOperationSlice.foldl
        (fun acc2 pattern =>
          match assocFind entry.2 pattern with
          | none => acc2
          | some vals =>
            if vals.length ≤ 0 then acc2
            else acc2 ++ [{ jobID := entry.1,
                            metric := { title := promName, help := helpText,
                                        value := ((vals.getD 0 0 : Int) : ℚ),
                                        extraLabel := "operation",
                                        extraLabelValue := pattern } }]) []) []

def openHelp : String := "Number of open operations the filesystem has performed."
def closeHelp : String := "Number of close operations the filesystem has performed."
def mknodHelp : String := "Number of mknod operations the filesystem has performed."
def linkHelp : String := "Number of link operations the filesystem has performed."
def unlinkHelp : String := "Number of unlink operations the filesystem has performed."
def mkdirHelp : String := "Number of mkdir operations the filesystem has performed."
def rmdirHelp : String := "Number of rmdir operations the filesystem has performed."
def renameHelp : String := "Number of rename operations the filesystem has performed."
def getattrHelp : String := "Number of getattr operations the filesystem has performed."
def setattrHelp : String := "Number of setattr operations the filesystem has performed."
def getxattrHelp : String := "Number of getxattr operations the filesystem has performed."
def setxattrHelp : String := "Number of setxattr operations the filesystem has performed."
def statfsHelp : String := "Number of statfs operations the filesystem has performed."
def syncHelp : String := "Number of sync operations the filesystem has performed."
def samedirRenameHelp : String :=
  "Number of samedir_rename operations the filesystem has performed."
def crossdirRenameHelp : String :=
  "Number of crossdir_rename operations the filesystem has performed."
def punchHelp : String := "Number of punch operations the filesystem has performed."
def destroyHelp : String := "Number of destroy operations the filesystem has performed."
def createHelp : String := "Number of create operations the filesystem has performed."
def getInfoHelp : String := "Number of get_info operations the filesystem has performed."
def setInfoHelp : String := "Number of set_info operations the filesystem has performed."
def quotactlHelp : String := "Number of quotactl operations the filesystem has performed."

/-- The `opMap` of procfs.go's `getJobStatsByOperation` (v1):
help text ↦ (numeric position, field-name pattern). -/
def v1JobOpMap : List (String × Nat × String) := [
  (readSamplesHelp, (0, "read_bytes")),
  (readMinimumHelp, (1, "read_bytes")),
  (readMaximumHelp, (2, "read_bytes")),
  (readTotalHelp, (3, "read_bytes")),
  (writeSamplesHelp, (0, "write_bytes")),
  (writeMinimumHelp, (1, "write_bytes")),
  (writeMaximumHelp, (2, "write_bytes")),
  (writeTotalHelp, (3, "write_bytes")),
  (openHelp, (0, "open")),
  (closeHelp, (0, "close")),
  (mknodHelp, (0, "mknod")),
  (linkHelp, (0, "link")),
  (unlinkHelp, (0, "unlink")),
  (mkdirHelp, (0, "mkdir")),
  (rmdirHelp, (0, "rmdir")),
  (renameHelp, (0, "rename")),
  (getattrHelp, (0, "getattr")),
  (setattrHelp, (0, "setattr")),
  (getxattrHelp, (0, "getxattr")),
  (setxattrHelp, (0, "setxattr")),
  (statfsHelp, (0, "statfs")),
  (syncHelp, (0, "sync")),
  (samedirRenameHelp, (0, "samedir_rename")),
  (crossdirRenameHelp, (0, "crossdir_rename")),
  (punchHelp, (0, "punch")),
  (destroyHelp, (0, "destroy")),
  (createHelp, (0, "create")),
  (getInfoHelp, (0, "get_info")),
  (setInfoHelp, (0, "set_info")),
  (quotactlHelp, (0, "quotactl"))]

/-- procfs.go `getJobStatsByOperation`: locate the line
`pattern + ": .*"` in the block, take its numeric tokens, and return the
one at the fixed position as a `ParseUint` value; an unknown help text or
a block without the line yields an empty list and no error.  `none` is the
panic of `opNumbers[index]` when tokens exist but not at the index. -/
def getJobStatsByOperation (jobBlock jobID promName helpText : String) :
    Option (Except String (List LustreJobsMetricV1)) :=
  match (v1JobOpMap.find? (fun e => e.1 = helpText)).map (·.2) with
  | none => some (.ok [])
  | some (idx, pattern) =>
    let opStat := captureToEol (pattern ++ ": ") jobBlock
    let opNumbers := regexCaptureNumbers opStat
    if opNumbers.length < 1 then some (.ok [])
    else
      match opNumbers.get? idx with
      | none => none
      | some tok =>
        match goParseUint (goTrimSpace tok) with
        | none => some (.error "ParseUint")
        | some v =>
          some (.ok [{ jobID := jobID,
                       metric := { title := promName, help := helpText, value := v } }])

/-- The JobBlock scenario text of the spec: job 29 with a `write_bytes`
sub-record whose sum is 274726912 (the layout of the repository's test
data). -/
def jobText29 : String :=
  "job_id:          29\n  snapshot_time:   1493326943\n  read_bytes:      \x7b samples:           0, unit: bytes, min:       0, max:       0, sum:               0 \x7d\n  write_bytes:     \x7b samples:         262, unit: bytes, min: 1048576, max: 1048576, sum:       274726912 \x7d"

/-- The field map `parsingJobStats` extracts from `jobText29`. -/
def jobMap29 : List (String × List Int) :=
  [("snapshot_time", [1493326943]),
   ("read_bytes", [0, 0, 0, 0]),
   ("write_bytes", [262, 1048576, 1048576, 274726912])]

set_option maxRecDepth 100000 in
/-- C9: parsing the job 29 block in single-operation mode for the
running-sum quantity of `write_bytes` yields exactly one record for job 29
with value 274726912 — on the v2 path (`parsingJobStats` followed by
`getJobStatsIOMetrics`) and on the v1 path (`getJobStatsByOperation`). -/
theorem jobStats_29_write_sum :
    parsingJobStats jobText29 = some (.ok ("29", jobMap29)) ∧
    getJobStatsIOMetrics [("29", jobMap29)] "job_write_bytes_total" writeTotalHelp =
      [{ jobID := "29",
         metric := { title := "job_write_bytes_total", help := writeTotalHelp,
                     value := 274726912, extraLabel := "", extraLabelValue := "" } }] ∧
    getJobStatsByOperation jobText29 "29" "job_write_bytes_total" writeTotalHelp =
      some (.ok [{ jobID := "29",
                   metric := { title := "job_write_bytes_total", help := writeTotalHelp,
                               value := 274726912 } }]) :=
  ⟨rfl, rfl, rfl⟩

/-! ## The metric assembler: `procfsV2Ctx.collect`

`collect` walks the declarative metric definitions, resolves each glob
through the round's `fileReader`, dispatches on the file name to the
matching parser and collects fully labelled records.  Any parser error is
returned immediately: the subsystem's whole collection aborts and
`ctx.metrics_` (set only at the very end) stays empty.
-/

/-- `lustreProcMetric`: one declarative metric definition.  The
`metricFunc` field only fixes the exposed value kind
(counter/gauge/untyped) and does not affect which records exist, so it is
not modelled. -/
structure LustreProcMetric where
  filename : String
  promName : String
  source : String
  path : String
  helpText : String
  hasMultipleVals : Bool
deriving Repr, DecidableEq

/-- A fully labelled metric record as handed to prometheus. -/
structure PromMetric where
  labels : List (String × String)
  name : String
  help : String
  value : ℚ
deriving Repr, DecidableEq

/-- The per-round parsing context: the file cache and the per-path
job-stats cache `filesJobStats`. -/
structure CtxState where
  fr : FRState
  filesJobStats : List (String × List (String × List (String × List Int)))
deriving Repr

def ctxInit : CtxState := { fr := frInit, filesJobStats := [] }

/-- `strings.Count(s, "/")`. -/
def countSlash (s : String) : Nat := (s.data.filter (fun c => c = '/')).length

/-- `filepath.Join` for the three components used by `collect` (empty
components dropped; the inputs of this development need no further
cleaning). -/
def joinPath (a b c : String) : String :=
  String.intercalate "/" (([a, b, c]).filter (fun s => ¬ s = ""))

/-- Arguments of the `parseFile` handler callback. -/
structure FileHandlerArg where
  nodeType : String
  nodeName : String
  name : String
  help : String
  value : ℚ
  extraLabel : String
  extraLabelValue : String
deriving Repr, DecidableEq

/-- Arguments of the `parseBRWStats` handler callback. -/
structure BRWHandlerArg where
  nodeType : String
  operation : String
  size : String
  nodeName : String
  name : String
  help : String
  value : ℚ
  extraLabel : String
  extraLabelValue : String
deriving Repr, DecidableEq

/-- Arguments of the `parseJobStats` handler callback. -/
structure JobHandlerArg where
  nodeType : String
  jobID : String
  nodeName : String
  name : String
  help : String
  value : ℚ
  extraLabel : String
  extraLabelValue : String
deriving Repr, DecidableEq

/-- The operation catalog of `getStatsOperationMetrics` (index 1 for every
pattern). -/
def statsOperationSlice : List String :=
  ["open", "close", "getattr", "setattr", "getxattr", "setxattr", "statfs", "seek",
   "readdir", "truncate", "alloc_inode", "removexattr", "unlink", "inode_permission",
   "create", "get_info", "set_info_async", "connect", "ping"]

/-- The loop of `getStatsOperationMetrics` over the operation catalog:
operations whose line is absent are skipped; a located line is split on
space runs and field 1 parsed, a parse failure aborting with an error and
a line with a single field panicking. -/
def statsOpLoop (statsFile promName helpText : String) :
    List String → Option (Except String (List LustreStatsMetric))
  | [] => some (.ok [])
  | op :: rest =>
    let opStat := captureToEol (op ++ " ") statsFile
    if opStat.length < 1 then statsOpLoop statsFile promName helpText rest
    else
      match (goSplitSpaceRuns opStat).get? 1 with
      | none => none
      | some tok =>
        match goParseFloat tok with
        | none => some (.error "ParseFloat")
        | some v =>
          match statsOpLoop statsFile promName helpText rest with
          | none => none
          | some (.error e) => some (.error e)
          | some (.ok l) =>
            some (.ok ({ title := promName, help := helpText, value := v,
                         extraLabel := "operation", extraLabelValue := op } :: l))

/-- `getStatsOperationMetrics(statsFile, promName, helpText)`. -/
def getStatsOperationMetrics (statsFile promName helpText : String) :
    Option (Except String (List LustreStatsMetric)) :=
  statsOpLoop statsFile promName helpText statsOperationSlice

/-- `procfsV2Ctx.parseStatsFile`: read the file through the round cache and
dispatch on `hasMultipleVals`. -/
def parseStatsFileV2 (disk : String → Option String) (st : CtxState)
    (helpText promName path : String) (hasMultipleVals : Bool) :
    Option (Except String (List LustreStatsMetric)) × CtxState :=
  let r := readFile disk st.fr path
  let st2 := { st with fr := r.2 }
  match r.1 with
  | none => (some (.error "ReadFile"), st2)
  | some statsFile =>
    if hasMultipleVals then (getStatsOperationMetrics statsFile promName helpText, st2)
    else (getStatsIOMetrics statsFile promName helpText, st2)

/-- `procfsV2Ctx.parseFile`: the `single` branch parses the trimmed file
content as one float; the stats/md_stats/encrypt_page_pools branch goes
through `parseStatsFile`; other metric types produce nothing. -/
def parseFileV2 (disk : String → Option String) (st : CtxState)
    (nodeType metricType path : String) (directoryDepth : Nat)
    (helpText promName : String) (hasMultipleVals : Bool) :
    Option (Except String (List FileHandlerArg)) × CtxState :=
  match parseFileElements path directoryDepth with
  | none => (none, st)
  | some (.error e) => (some (.error e), st)
  | some (.ok nn) =>
    let nodeName := nn.2
    if metricType = singleType then
      let r := readFile disk st.fr path
      let st2 := { st with fr := r.2 }
      match r.1 with
      | none => (some (.error "ReadFile"), st2)
      | some v =>
        match goParseFloat (goTrimSpace v) with
        | none => (some (.error "ParseFloat"), st2)
        | some q =>
          (some (.ok [{ nodeType := nodeType, nodeName := nodeName, name := promName,
                        help := helpText, value := q, extraLabel := "",
                        extraLabelValue := "" }]), st2)
    else if metricType = statsType ∨ metricType = mdStatsType ∨
        metricType = encryptPagePoolsType then
      match parseStatsFileV2 disk st helpText promName path hasMultipleVals with
      | (none, st2) => (none, st2)
      | (some (.error e), st2) => (some (.error e), st2)
      | (some (.ok l), st2) =>
        (some (.ok (l.map (fun m =>
          { nodeType := nodeType, nodeName := nodeName, name := m.title,
            help := m.help, value := m.value, extraLabel := m.extraLabel,
            extraLabelValue := m.extraLabelValue }))), st2)
    else (some (.ok []), st)

/-- `brwStatsMetricBlocks`: help text ↦ section title. -/
def brwStatsMetricBlocks : List (String × String) := [
  (pagesPerBlockRWHelp, "pages per bulk r/w"),
  (discontiguousPagesHelp, "discontiguous pages"),
  (diskIOsInFlightHelp, "disk I/Os in flight"),
  (ioTimeHelp, "I/O time"),
  (diskIOSizeHelp, "disk I/O size"),
  (pagesPerRPCHelp, "pages per rpc"),
  (rpcsInFlightHelp, "rpcs in flight"),
  (offsetHelp, "offset")]

/-- The record loop at the end of `parseBRWStats`: each bucket's value is
parsed as a float, a failure aborting with an error. -/
def brwArgsLoop (nodeType nodeName promName helpText extraLabel extraLabelValue : String) :
    List LustreBRWMetric → Except String (List BRWHandlerArg)
  | [] => .ok []
  | item :: rest =>
    match goParseFloat item.value with
    | none => .error "ParseFloat"
    | some v =>
      match brwArgsLoop nodeType nodeName promName helpText extraLabel extraLabelValue rest with
      | .error e => .error e
      | .ok l =>
        .ok ({ nodeType := nodeType, operation := item.operation,
               size := convertToBytes item.size, nodeName := nodeName,
               name := promName, help := helpText, value := v,
               extraLabel := extraLabel, extraLabelValue := extraLabelValue } :: l)

/-- `procfsV2Ctx.parseBRWStats`: capture the requested section block, split
it into bucket records, and emit one argument tuple per bucket; with
`hasMultipleVals` the type qualifier is the third-from-last path element
(panicking when the path is too short). -/
def parseBRWStatsV2 (disk : String → Option String) (st : CtxState)
    (nodeType metricType path : String) (directoryDepth : Nat)
    (helpText promName : String) (hasMultipleVals : Bool) :
    Option (Except String (List BRWHandlerArg)) × CtxState :=
  match parseFileElements path directoryDepth with
  | none => (none, st)
  | some (.error e) => (some (.error e), st)
  | some (.ok nn) =>
    let nodeName := nn.2
    let r := readFile disk st.fr path
    let st2 := { st with fr := r.2 }
    match r.1 with
    | none => (some (.error "ReadFile"), st2)
    | some statsFile =>
      let block := captureBlock
        (((brwStatsMetricBlocks.find? (fun e => e.1 = helpText)).map (·.2)).getD "")
        statsFile
      match splitBRWStats block with
      | none => (none, st2)
      | some metricList =>
        let pathElements := goSplitChar '/' path
        if hasMultipleVals ∧ pathElements.length < 3 then (none, st2)
        else
          let extraLabel := if hasMultipleVals then "type" else ""
          let extraLabelValue :=
            if hasMultipleVals then pathElements.getD (pathElements.length - 3) "" else ""
          match brwArgsLoop nodeType nodeName promName helpText extraLabel
              extraLabelValue metricList with
          | .error e => (some (.error e), st2)
          | .ok args => (some (.ok args), st2)

/-- Go `strings.Split(s, "- ")` over char lists, structurally. -/
def splitDashSpaceList : List Char → List (List Char)
  | [] => [[]]
  | '-' :: ' ' :: cs => [] :: splitDashSpaceList cs
  | c :: cs =>
    match splitDashSpaceList cs with
    | [] => [[c]]
    | p :: ps => (c :: p) :: ps

def goSplitDashSpace (s : String) : List String :=
  (splitDashSpaceList s.data).map String.mk

/-- The per-block loop of `parseJobStatsText`: blocks whose parse reports
an error are logged and skipped; parsed blocks are inserted into the map in
order (overwriting duplicates). -/
def buildJobsStats (acc : List (String × List (String × List Int))) :
    List String → Option (List (String × List (String × List Int)))
  | [] => some acc
  | job :: rest =>
    match parsingJobStats job with
    | none => none
    | some (.error _) => buildJobsStats acc rest
    | some (.ok jd) => buildJobsStats (assocPut acc jd.1 jd.2) rest

/-- The selection step shared by both branches of `parseJobStatsText`. -/
def selectJobMetrics (jobsStats : List (String × List (String × List Int)))
    (promName helpText : String) (hasMultipleVals : Bool) : List LustreJobsMetric :=
  if hasMultipleVals then getJobStatsOperationMetrics jobsStats promName helpText
  else getJobStatsIOMetrics jobsStats promName helpText

/-- `procfsV2Ctx.parseJobStatsText`: reuse the per-path job map when
cached; otherwise read the file, split it on `"- "` (returning empty — and
caching nothing — when at most one piece results), parse every block, cache
the map, and select the requested metrics. -/
def parseJobStatsTextV2 (disk : String → Option String) (st : CtxState)
    (path promName helpText : String) (hasMultipleVals : Bool) :
    Option (Except String (List LustreJobsMetric)) × CtxState :=
  match assocFind st.filesJobStats path with
  | some jobsStats =>
    (some (.ok (selectJobMetrics jobsStats promName helpText hasMultipleVals)), st)
  | none =>
    let r := readFile disk st.fr path
    let st2 := { st with fr := r.2 }
    match r.1 with
    | none => (some (.error "ReadFile"), st2)
    | some content =>
      let splits := goSplitDashSpace content
      if splits.length ≤ 1 then (some (.ok []), st2)
      else
        match buildJobsStats [] splits.tail with
        | none => (none, st2)
        | some jobsStats =>
          let st3 := { st2 with filesJobStats := assocPut st2.filesJobStats path jobsStats }
          (some (.ok (selectJobMetrics jobsStats promName helpText hasMultipleVals)), st3)

/-- `procfsV2Ctx.parseJobStats`. -/
def parseJobStatsV2 (disk : String → Option String) (st : CtxState)
    (nodeType metricType path : String) (directoryDepth : Nat)
    (helpText promName : String) (hasMultipleVals : Bool) :
    Option (Except String (List JobHandlerArg)) × CtxState :=
  match parseFileElements path directoryDepth with
  | none => (none, st)
  | some (.error e) => (some (.error e), st)
  | some (.ok nn) =>
    let nodeName := nn.2
    match parseJobStatsTextV2 disk st path promName helpText hasMultipleVals with
    | (none, st2) => (none, st2)
    | (some (.error e), st2) => (some (.error e), st2)
    | (some (.ok items), st2) =>
      (some (.ok (items.map (fun item =>
        { nodeType := nodeType, jobID := item.jobID, nodeName := nodeName,
          name := item.metric.title, help := item.metric.help,
          value := item.metric.value, extraLabel := item.metric.extraLabel,
          extraLabelValue := item.metric.extraLabelValue }))), st2)

/-- The handler closure of `collect`'s default branch. -/
def mkFileMetric (a : FileHandlerArg) : PromMetric :=
  if a.extraLabelValue = "" then
    { labels := [("component", a.nodeType), ("target", a.nodeName)],
      name := a.name, help := a.help, value := a.value }
  else
    { labels := [("component", a.nodeType), ("target", a.nodeName),
                 (a.extraLabel, a.extraLabelValue)],
      name := a.name, help := a.help, value := a.value }

/-- The handler closure of `collect`'s brw_stats/rpc_stats branch. -/
def mkBRWMetric (a : BRWHandlerArg) : PromMetric :=
  if a.extraLabelValue = "" then
    { labels := [("component", a.nodeType), ("target", a.nodeName),
                 ("operation", a.operation), ("size", a.size)],
      name := a.name, help := a.help, value := a.value }
  else
    { labels := [("component", a.nodeType), ("target", a.nodeName),
                 ("operation", a.operation), ("size", a.size),
                 (a.extraLabel, a.extraLabelValue)],
      name := a.name, help := a.help, value := a.value }

/-- The handler closure of `collect`'s job_stats branch. -/
def mkJobMetric (a : JobHandlerArg) : PromMetric :=
  if a.extraLabelValue = "" then
    { labels := [("component", a.nodeType), ("target", a.nodeName),
                 ("jobid", a.jobID)],
      name := a.name, help := a.help, value := a.value }
  else
    { labels := [("component", a.nodeType), ("target", a.nodeName),
                 ("jobid", a.jobID), (a.extraLabel, a.extraLabelValue)],
      name := a.name, help := a.help, value := a.value }

/-- The switch of `collect` for one resolved path. -/
def collectPath (disk : String → Option String) (m : LustreProcMetric)
    (directoryDepth : Nat) (path : String) (st : CtxState) :
    Option (Except String (List PromMetric)) × CtxState :=
  if m.filename = "brw_stats" ∨ m.filename = "rpc_stats" then
    match parseBRWStatsV2 disk st m.source "stats" path directoryDepth
        m.helpText m.promName m.hasMultipleVals with
    | (none, st2) => (none, st2)
    | (some (.error e), st2) => (some (.error e), st2)
    | (some (.ok args), st2) => (some (.ok (args.map mkBRWMetric)), st2)
  else if m.filename = "job_stats" then
    match parseJobStatsV2 disk st m.source "job_stats" path directoryDepth
        m.helpText m.promName m.hasMultipleVals with
    | (none, st2) => (none, st2)
    | (some (.error e), st2) => (some (.error e), st2)
    | (some (.ok args), st2) => (some (.ok (args.map mkJobMetric)), st2)
  else
    let metricType :=
      if m.filename = statsType then statsType
      else if m.filename = mdStatsType then mdStatsType
      else if m.filename = encryptPagePoolsType then encryptPagePoolsType
      else singleType
    match parseFileV2 disk st m.source metricType path directoryDepth
        m.helpText m.promName m.hasMultipleVals with
    | (none, st2) => (none, st2)
    | (some (.error e), st2) => (some (.error e), st2)
    | (some (.ok args), st2) => (some (.ok (args.map mkFileMetric)), st2)

/-- The inner loop of `collect` over the resolved paths of one definition;
any error aborts immediately. -/
def collectPaths (disk : String → Option String) (m : LustreProcMetric)
    (directoryDepth : Nat) :
    List String → CtxState → Option (Except String (List PromMetric)) × CtxState
  | [], st => (some (.ok []), st)
  | p :: rest, st =>
    match collectPath disk m directoryDepth p st with
    | (none, st2) => (none, st2)
    | (some (.error e), st2) => (some (.error e), st2)
    | (some (.ok ms), st2) =>
      match collectPaths disk m directoryDepth rest st2 with
      | (none, st3) => (none, st3)
      | (some (.error e), st3) => (some (.error e), st3)
      | (some (.ok ms2), st3) => (some (.ok (ms ++ ms2)), st3)

/-- The outer loop of `collect` over the metric definitions: resolve the
glob through the round cache, skip definitions with no matching path, and
abort the whole subsystem on the first error. -/
def collectDefs (glob : String → List String) (disk : String → Option String)
    (basePath : String) :
    List LustreProcMetric → CtxState → Option (Except String (List PromMetric)) × CtxState
  | [], st => (some (.ok []), st)
  | m :: rest, st =>
    let directoryDepth := countSlash m.filename
    let g := frGlob glob disk st.fr (joinPath basePath m.path m.filename) false
    let st1 : CtxState := { st with fr := g.2 }
    if g.1 = [] then collectDefs glob disk basePath rest st1
    else
      match collectPaths disk m directoryDepth g.1 st1 with
      | (none, st2) => (none, st2)
      | (some (.error e), st2) => (some (.error e), st2)
      | (some (.ok ms), st2) =>
        match collectDefs glob disk basePath rest st2 with
        | (none, st3) => (none, st3)
        | (some (.error e), st3) => (some (.error e), st3)
        | (some (.ok ms2), st3) => (some (.ok (ms ++ ms2)), st3)

/-- `procfsV2Ctx.prepareFiles`: glob every definition with the read flag,
prefetching all resolved paths; `fr.wait(true)` then joins the pool, which
the sequential model renders as a no-op. -/
def prepareFiles (glob : String → List String) (disk : String → Option String)
    (basePath : String) (defs : List LustreProcMetric) (st : CtxState) : CtxState :=
  defs.foldl
    (fun st2 m =>
      { st2 with fr := (frGlob glob disk st2.fr (joinPath basePath m.path m.filename) true).2 })
    st

/-- `procfsV2Ctx.collect`: prefetch, then walk the definitions.  The result
is the subsystem's outcome; on `.error` the context's `metrics_` field —
assigned only after the loop finishes — keeps its initial empty value. -/
def collect (glob : String → List String) (disk : String → Option String)
    (basePath : String) (defs : List LustreProcMetric) :
    Option (Except String (List PromMetric)) :=
  (collectDefs glob disk basePath defs (prepareFiles glob disk basePath defs ctxInit)).1

/-- The metric records a subsystem contributes to the round
(`ctx.update` pushes `ctx.metrics_`, which stays empty unless `collect`
returned nil). -/
def contributedMetrics : Option (Except String (List PromMetric)) → List PromMetric
  | some (.ok l) => l
  | _ => []

/-- The outcome string recorded by `worker.run` for one source. -/
def statusOf : Except String (List PromMetric) → String
  | .ok _ => "success"
  | .error _ => "error"

/-- `worker.run` followed by `worker.update`, serialized in source order:
each source's `collect` yields its outcome record, and the round's metric
list is the concatenation of the per-source `metrics_` lists. -/
def runWorkerV2 (glob : String → List String) (disk : String → Option String) :
    List (String × String × List LustreProcMetric) →
      Option (List (String × String) × List PromMetric)
  | [] => some ([], [])
  | src :: rest =>
    match collect glob disk src.2.1 src.2.2 with
    | none => none
    | some r =>
      match runWorkerV2 glob disk rest with
      | none => none
      | some rr =>
        some ((src.1, statusOf r) :: rr.1,
              (match r with | .ok l => l | .error _ => []) ++ rr.2)

/-- C3 (amended): a parser error — in particular a malformed numeric token
— aborts the *whole subsystem's* collection for the round: the subsystem is
recorded as "error" and contributes no metric records at all (not even from
definitions already processed), while other subsystems in the same round
are unaffected and still contribute theirs. -/
theorem malformed_aborts_whole_subsystem
    (glob : String → List String) (disk : String → Option String)
    (n1 n2 bp1 bp2 : String) (defs1 defs2 : List LustreProcMetric)
    (e : String) (r2 : Except String (List PromMetric))
    (h1 : collect glob disk bp1 defs1 = some (.error e))
    (h2 : collect glob disk bp2 defs2 = some r2) :
    contributedMetrics (collect glob disk bp1 defs1) = [] ∧
    runWorkerV2 glob disk [(n1, bp1, defs1), (n2, bp2, defs2)] =
      some ([(n1, "error"), (n2, statusOf r2)], contributedMetrics (some r2)) := by
  cases r2 <;> simp [runWorkerV2, h1, h2, statusOf, contributedMetrics]

/-- The glob resolver of the two-definition malformed-data scenario. -/
def c3Glob : String → List String := fun pat =>
  if pat = "base/dir/f1" then ["base/dir/f1"]
  else if pat = "base/dir/f2" then ["base/dir/f2"] else []

/-- The disk of the scenario: `f1` holds the malformed token `abc`, `f2`
holds the well-formed scalar `42`. -/
def c3Disk : String → Option String := fun p =>
  if p = "base/dir/f1" then some "abc"
  else if p = "base/dir/f2" then some "42" else none

/-- A single-value metric definition whose file content is malformed. -/
def c3DefBad : LustreProcMetric :=
  { filename := "f1", promName := "m1", source := "ost", path := "dir",
    helpText := "h1", hasMultipleVals := false }

/-- A single-value metric definition of the same subsystem whose file
parses fine. -/
def c3DefGood : LustreProcMetric :=
  { filename := "f2", promName := "m2", source := "ost", path := "dir",
    helpText := "h2", hasMultipleVals := false }

/-- Witness for C3 (amended): with the malformed `f1` and the well-formed
`f2` in one subsystem and a second subsystem holding only `f2`, the first
subsystem reports "error" and contributes nothing while the second
contributes its record. -/
theorem malformed_aborts_whole_subsystem_witness :
    contributedMetrics (collect c3Glob c3Disk "base" [c3DefBad, c3DefGood]) = [] ∧
    runWorkerV2 c3Glob c3Disk
        [("procfs", "base", [c3DefBad, c3DefGood]), ("sysfs", "base", [c3DefGood])] =
      some ([("procfs", "error"), ("sysfs", "success")],
            [{ labels := [("component", "ost"), ("target", "dir")],
               name := "m2", help := "h2", value := 42 }]) :=
  malformed_aborts_whole_subsystem c3Glob c3Disk "procfs" "sysfs" "base" "base"
    [c3DefBad, c3DefGood] [c3DefGood] "ParseFloat"
    (.ok [{ labels := [("component", "ost"), ("target", "dir")],
            name := "m2", help := "h2", value := 42 }]) rfl rfl

/-- C3 counterexample: in a subsystem with the malformed definition `f1`
and the well-formed definition `f2`, `collect` returns an error and the
subsystem contributes no records for the round — in particular `f2`'s
record, which parses fine on its own, is missing — refuting the claim that
only the single malformed metric definition is skipped while the remaining
definitions of the same subsystem still contribute. -/
theorem collect_malformed_counterexample :
    collect c3Glob c3Disk "base" [c3DefBad, c3DefGood] = some (.error "ParseFloat") ∧
    contributedMetrics (collect c3Glob c3Disk "base" [c3DefBad, c3DefGood]) = [] ∧
    collect c3Glob c3Disk "base" [c3DefGood] =
      some (.ok [{ labels := [("component", "ost"), ("target", "dir")],
                   name := "m2", help := "h2", value := 42 }]) :=
  ⟨rfl, rfl, rfl⟩

end LustreExporter